import Mathlib

/-!
# State-lattice search vertices of `nav2_smac_planner`

A shallow embedding of `src/nav2_smac_planner/src/node_lattice.cpp`.

Conventions of the embedding:

* C++ `float`/`double` values that are ordinary numbers (poses, angles, penalties) are exact
  rationals: rounding error and non-finite values are outside the model.  The two members that the
  source fills with float sentinels (`_cell_cost`, `_accumulated_cost`) use `FloatVal`, which has
  NaN and the infinities.
* A member function that mutates its object takes the object and returns the new one next to its
  result; an exception is an `Except.error`, returned together with the state reached when it was
  thrown.
* `std::map<float, MotionPoses>` is a function from keys to optional values (`none`: no such key).
* Container sizes are natural numbers (assumed below `2^32`, so the `unsigned int` copies of
  `size()` are exact).
-/

namespace nav2_smac_planner

/-! ## Outcomes -/

/-- Ways in which a call can fail.  The first six are C++ exceptions; `undefinedBehaviour` marks
an execution the C++ standard gives no meaning to (unchecked out-of-range access, `back()` of an
empty vector). -/
inductive Err
  | fileError
  | parseError
  | typeError
  | outOfRange
  | zeroSizeProjections
  | invalidMotionModel
  | undefinedBehaviour
  deriving DecidableEq, Repr

/-! ## JSON documents (the part of `nlohmann::json` the source uses) -/

/-- A parsed JSON value.  Object members are listed in key order, as the underlying `std::map`
stores them. -/
inductive Json
  | null
  | bool (b : Bool)
  | num (q : ℚ)
  | str (s : String)
  | arr (xs : List Json)
  | obj (kvs : List (String × Json))

/-- Checked member access `j.at(key)`: `out_of_range` for a missing key, `type_error` when `j` is
not an object. -/
def Json.atKey (j : Json) (key : String) : Except Err Json :=
  match j with
  | .obj kvs =>
    match kvs.lookup key with
    | some v => .ok v
    | none => .error .outOfRange
  | _ => .error .typeError

/-- Member access `j[key]` on a non-const value: a missing key (or a null `j`) yields a
null member, `type_error` when `j` is neither null nor an object.  The member inserted into the
local document is not observable afterwards and is not modelled. -/
def Json.index (j : Json) (key : String) : Except Err Json :=
  match j with
  | .null => .ok .null
  | .obj kvs => .ok ((kvs.lookup key).getD .null)
  | _ => .error .typeError

/-- Member access `j[key]` on a const value: unchecked for a missing key, `type_error` when `j`
is not an object. -/
def Json.indexConst (j : Json) (key : String) : Except Err Json :=
  match j with
  | .obj kvs =>
    match kvs.lookup key with
    | some v => .ok v
    | none => .error .undefinedBehaviour
  | _ => .error .typeError

/-- Element access `j[i]` on a const value: unchecked for an index past the end, `type_error`
when `j` is not an array. -/
def Json.indexArr (j : Json) (i : Nat) : Except Err Json :=
  match j with
  | .arr xs =>
    match xs.get? i with
    | some v => .ok v
    | none => .error .undefinedBehaviour
  | _ => .error .typeError

/-- The values a range-for over `j` visits: the elements of an array, the member values of an
object, nothing for null, and the value itself for any other value. -/
def Json.items (j : Json) : List Json :=
  match j with
  | .null => []
  | .arr xs => xs
  | .obj kvs => kvs.map Prod.snd
  | v => [v]

/-- Conversion to `float`: numbers, and booleans as 0 or 1; `type_error` otherwise. -/
def Json.toFloat (j : Json) : Except Err ℚ :=
  match j with
  | .num q => .ok q
  | .bool b => .ok (if b then 1 else 0)
  | _ => .error .typeError

/-- Truncation toward zero, the conversion of a floating value to an integer type. -/
def truncate (q : ℚ) : Int :=
  if 0 ≤ q then Int.floor q else Int.ceil q

/-- Conversion to `unsigned int`: the number truncated and reduced modulo `2^32`, booleans as 0 or
1; `type_error` otherwise. -/
def Json.toUnsigned (j : Json) : Except Err Nat :=
  match j with
  | .num q => .ok (truncate q % 2 ^ 32).toNat
  | .bool b => .ok (if b then 1 else 0)
  | _ => .error .typeError

/-- Conversion to `std::string`. -/
def Json.toStr (j : Json) : Except Err String :=
  match j with
  | .str s => .ok s
  | _ => .error .typeError

/-- Conversion to `std::vector<float>`: an array all of whose elements convert to `float`. -/
def Json.toFloatVector (j : Json) : Except Err (List ℚ) :=
  match j with
  | .arr xs => xs.mapM Json.toFloat
  | _ => .error .typeError

/-! ## Data model (`lattice_types.hpp`, `motion_primative_parser.hpp`) -/

/-- The struct `MotionPose`. -/
structure MotionPose where
  _x : ℚ
  _y : ℚ
  _theta : ℚ
  deriving DecidableEq, Repr

/-- The typedef `MotionPoses`, a vector of poses. -/
abbrev MotionPoses := List MotionPose

/-- The struct `LatticeMetadata`. -/
structure LatticeMetadata where
  turningRadius : ℚ
  stepDistance : ℚ
  gridSeparation : ℚ
  maxLength : ℚ
  numberOfHeadings : Nat
  outputFile : String
  headingAngles : List ℚ
  numberOfTrajectories : Nat
  deriving DecidableEq, Repr

/-- The struct `Primitive`. -/
structure Primitive where
  trajectoryId : Nat
  startAngle : ℚ
  endAngle : ℚ
  radius : ℚ
  trajectoryLength : ℚ
  arcLength : ℚ
  straightLength : ℚ
  poses : List MotionPose
  deriving DecidableEq, Repr

/-- A default-constructed `MotionPose pose;`.  Its members are indeterminate in C++; every use in
the source overwrites all three before reading them, so zeros stand in for them. -/
def MotionPose.fresh : MotionPose := ⟨0, 0, 0⟩

/-- A default-constructed `Primitive newPrimitive;`: no poses, scalar members indeterminate (zeros
stand in for them, they are overwritten before being read). -/
def Primitive.fresh : Primitive := ⟨0, 0, 0, 0, 0, 0, 0, []⟩

/-! ## Parsing (`node_lattice.cpp` lines 37-72) -/

/-- The function `from_json_to_metaData`: eight checked reads in source order, each stored into
the record before the next is attempted. -/
def from_json_to_metaData (j : Json) (md : LatticeMetadata) : Except Err Unit × LatticeMetadata :=
  match (j.atKey "turningRadius").bind Json.toFloat with
  | .error e => (.error e, md)
  | .ok v1 =>
  let md := { md with turningRadius := v1 }
  match (j.atKey "stepDistance").bind Json.toFloat with
  | .error e => (.error e, md)
  | .ok v2 =>
  let md := { md with stepDistance := v2 }
  match (j.atKey "gridSeparation").bind Json.toFloat with
  | .error e => (.error e, md)
  | .ok v3 =>
  let md := { md with gridSeparation := v3 }
  match (j.atKey "maxLength").bind Json.toFloat with
  | .error e => (.error e, md)
  | .ok v4 =>
  let md := { md with maxLength := v4 }
  match (j.atKey "numberOfHeadings").bind Json.toUnsigned with
  | .error e => (.error e, md)
  | .ok v5 =>
  let md := { md with numberOfHeadings := v5 }
  match (j.atKey "outputFile").bind Json.toStr with
  | .error e => (.error e, md)
  | .ok v6 =>
  let md := { md with outputFile := v6 }
  match (j.atKey "headingAngles").bind Json.toFloatVector with
  | .error e => (.error e, md)
  | .ok v7 =>
  let md := { md with headingAngles := v7 }
  match (j.atKey "numberOfTrajectories").bind Json.toUnsigned with
  | .error e => (.error e, md)
  | .ok v8 => (.ok (), { md with numberOfTrajectories := v8 })

/-- The function `from_json_to_pose`: three unchecked element reads. -/
def from_json_to_pose (j : Json) (pose : MotionPose) : Except Err Unit × MotionPose :=
  match (j.indexArr 0).bind Json.toFloat with
  | .error e => (.error e, pose)
  | .ok x =>
  let pose := { pose with _x := x }
  match (j.indexArr 1).bind Json.toFloat with
  | .error e => (.error e, pose)
  | .ok y =>
  let pose := { pose with _y := y }
  match (j.indexArr 2).bind Json.toFloat with
  | .error e => (.error e, pose)
  | .ok th => (.ok (), { pose with _theta := th })

/-- The loop of `from_json_to_primitive` over the pose entries: each is parsed into a new pose
that is appended to the primitive. -/
def posesLoop : List Json → Primitive → Except Err Unit × Primitive
  | [], primitive => (.ok (), primitive)
  | jsonPose :: rest, primitive =>
    match from_json_to_pose jsonPose MotionPose.fresh with
    | (.error e, _) => (.error e, primitive)
    | (.ok _, pose) => posesLoop rest { primitive with poses := primitive.poses ++ [pose] }

/-- The function `from_json_to_primitive`: seven checked scalar reads, then the pose loop over the
unchecked member `poses`. -/
def from_json_to_primitive (j : Json) (primitive : Primitive) : Except Err Unit × Primitive :=
  match (j.atKey "trajectoryId").bind Json.toUnsigned with
  | .error e => (.error e, primitive)
  | .ok v1 =>
  let primitive := { primitive with trajectoryId := v1 }
  match (j.atKey "startAngle").bind Json.toFloat with
  | .error e => (.error e, primitive)
  | .ok v2 =>
  let primitive := { primitive with startAngle := v2 }
  match (j.atKey "endAngle").bind Json.toFloat with
  | .error e => (.error e, primitive)
  | .ok v3 =>
  let primitive := { primitive with endAngle := v3 }
  match (j.atKey "radius").bind Json.toFloat with
  | .error e => (.error e, primitive)
  | .ok v4 =>
  let primitive := { primitive with radius := v4 }
  match (j.atKey "trajectoryLength").bind Json.toFloat with
  | .error e => (.error e, primitive)
  | .ok v5 =>
  let primitive := { primitive with trajectoryLength := v5 }
  match (j.atKey "arcLength").bind Json.toFloat with
  | .error e => (.error e, primitive)
  | .ok v6 =>
  let primitive := { primitive with arcLength := v6 }
  match (j.atKey "straightLength").bind Json.toFloat with
  | .error e => (.error e, primitive)
  | .ok v7 =>
  let primitive := { primitive with straightLength := v7 }
  match j.indexConst "poses" with
  | .error e => (.error e, primitive)
  | .ok ps => posesLoop ps.items primitive

/-! ## The shared motion table -/

/-- The pair `NodeHybrid::Coordinates` of a continuous position and a heading bin. -/
structure Coordinates where
  x : ℚ
  y : ℚ
  theta : ℚ
  deriving DecidableEq, Repr

/-- The members of `SearchInfo` that the motion table reads. -/
structure SearchInfo where
  change_penalty : ℚ
  non_straight_penalty : ℚ
  cost_penalty : ℚ
  reverse_penalty : ℚ
  obstacle_heuristic_cost_weight : ℚ
  lattice_filepath : String

/-- What opening and reading a path yields: the file cannot be opened, its text is not JSON, or
it holds a document. -/
inductive FileContent
  | unreadable
  | malformed
  | document (j : Json)

/-- The file system the loader reads from. -/
abbrev FileSystem := String → FileContent

/-- The map `angleToProjections`, keyed by exact heading value. -/
abbrev ProjectionMap := ℚ → Option MotionPoses

/-- The members of `LatticeMotionTable` that the source touches.  The last four are read by the
vertex operations and are never written by `initMotionModel`; `state_space` stands for the
distance function of the analytic curve space. -/
structure LatticeMotionTable where
  size_x : Nat
  change_penalty : ℚ
  non_straight_penalty : ℚ
  cost_penalty : ℚ
  reverse_penalty : ℚ
  obstacle_heuristic_cost_weight : ℚ
  current_lattice_filepath : String
  angleToProjections : ProjectionMap
  latticeMetadata : LatticeMetadata
  min_turning_radius : ℚ
  headingAngles : List ℚ
  num_angle_quantization : Nat
  bin_size : ℚ
  trig_values : List (ℚ × ℚ)
  state_space : ℚ × ℚ × ℚ → ℚ × ℚ × ℚ → ℚ

/-- The map access `m[key]`: the stored value, or a default-constructed (empty) value that is
inserted under the key when it is missing. -/
def ProjectionMap.index (m : ProjectionMap) (key : ℚ) : MotionPoses × ProjectionMap :=
  match m key with
  | some v => (v, m)
  | none => ([], Function.update m key (some []))

/-- The assignment `m[key] = value`. -/
def ProjectionMap.assign (m : ProjectionMap) (key : ℚ) (value : MotionPoses) : ProjectionMap :=
  Function.update m key (some value)

/-- The loop of `LatticeMotionTable::initMotionModel` over the entries of `primitives`
(lines 113-131), from the loop variables `prevStartAngle`, `projections` and the map: each entry
is parsed into a fresh primitive; a start angle different from the previous one stores the
collected projections under the previous angle and starts a new collection; the last pose and the
end angle of the primitive are appended.  Returns the final loop variables, or the error, next to
the map as it stands. -/
def binLoop : List Json → ℚ → MotionPoses → ProjectionMap →
    Except Err (ℚ × MotionPoses) × ProjectionMap
  | [], prevStartAngle, projections, m => (.ok (prevStartAngle, projections), m)
  | primative :: rest, prevStartAngle, projections, m =>
    match from_json_to_primitive primative Primitive.fresh with
    | (.error e, _) => (.error e, m)
    | (.ok _, newPrimitive) =>
      let m1 := if prevStartAngle ≠ newPrimitive.startAngle
        then m.assign prevStartAngle projections else m
      let projections1 := if prevStartAngle ≠ newPrimitive.startAngle then [] else projections
      let prev1 := if prevStartAngle ≠ newPrimitive.startAngle
        then newPrimitive.startAngle else prevStartAngle
      match newPrimitive.poses.getLast? with
      | none => (.error .undefinedBehaviour, m1)
      | some last =>
        binLoop rest prev1 (projections1 ++ [⟨last._x, last._y, newPrimitive.endAngle⟩]) m1

/-- The member function `LatticeMotionTable::initMotionModel` (lines 83-154). -/
def LatticeMotionTable.initMotionModel (fs : FileSystem) (t : LatticeMotionTable)
    (size_x_in : Nat) (search_info : SearchInfo) : Except Err Unit × LatticeMotionTable :=
  let t := { t with
    size_x := size_x_in
    change_penalty := search_info.change_penalty
    non_straight_penalty := search_info.non_straight_penalty
    cost_penalty := search_info.cost_penalty
    reverse_penalty := search_info.reverse_penalty
    obstacle_heuristic_cost_weight := search_info.obstacle_heuristic_cost_weight
    current_lattice_filepath := search_info.lattice_filepath }
  match fs t.current_lattice_filepath with
  | .unreadable => (.error .fileError, t)
  | .malformed => (.error .parseError, t)
  | .document j =>
    match j.index "primitives" with
    | .error e => (.error e, t)
    | .ok primitives =>
      match binLoop primitives.items 0 [] t.angleToProjections with
      | (.error e, m) => (.error e, { t with angleToProjections := m })
      | (.ok (prevStartAngle, projections), m) =>
        let t := { t with angleToProjections := m.assign prevStartAngle projections }
        match j.index "latticeMetadata" with
        | .error e => (.error e, t)
        | .ok jm =>
          match from_json_to_metaData jm t.latticeMetadata with
          | (.error e, md) => (.error e, { t with latticeMetadata := md })
          | (.ok _, md) =>
            (.ok (), { t with
              latticeMetadata := md
              min_turning_radius := md.turningRadius
              headingAngles := md.headingAngles })

/-- The member function `LatticeMotionTable::getLatticeMetadata` (lines 186-211).  It assigns no
member of the table, which is returned as it was; the local record it fills starts with
indeterminate members, passed here as `indeterminate`. -/
def LatticeMotionTable.getLatticeMetadata (fs : FileSystem) (t : LatticeMotionTable)
    (lattice_filepath : String) (indeterminate : LatticeMetadata) :
    Except Err LatticeMetadata × LatticeMotionTable :=
  match fs lattice_filepath with
  | .unreadable => (.error .fileError, t)
  | .malformed => (.error .parseError, t)
  | .document j =>
    match j.index "latticeMetadata" with
    | .error e => (.error e, t)
    | .ok jm =>
      match from_json_to_metaData jm indeterminate with
      | (.error e, _) => (.error e, t)
      | (.ok _, md) => (.ok md, t)

/-! ## Lattice vertices -/

/-- A `float` that may hold a sentinel: NaN, an infinity, or a finite value. -/
inductive FloatVal
  | nan
  | posInf
  | negInf
  | finite (q : ℚ)
  deriving DecidableEq, Repr

/-- The constant `std::numeric_limits<float>::max()`, the largest finite `float`. -/
def FLT_MAX : ℚ := (2 ^ 24 - 1) * 2 ^ 104

/-- The test `std::isnan`. -/
def FloatVal.isnan : FloatVal → Bool
  | .nan => true
  | _ => false

/-- The conversion of a `float` to `bool`: false exactly for zero. -/
def FloatVal.toBool : FloatVal → Bool
  | .finite q => decide (q ≠ 0)
  | _ => true

/-- The data members of `NodeLattice`.  The parent pointer is the pool index of the parent
vertex, `none` for `nullptr`. -/
structure NodeLattice where
  parent : Option Nat
  pose : Coordinates
  _cell_cost : FloatVal
  _accumulated_cost : FloatVal
  _index : Nat
  _was_visited : Bool
  _motion_primitive_index : Nat
  deriving DecidableEq, Repr

/-- The constructor `NodeLattice::NodeLattice(index)` (lines 213-221).  It does not mention the
motion-primitive index, whose value is left as `indeterminate`. -/
def NodeLattice.construct (index : Nat) (indeterminate : Nat) : NodeLattice :=
  { parent := none
    pose := ⟨0, 0, 0⟩
    _cell_cost := .nan
    _accumulated_cost := .finite FLT_MAX
    _index := index
    _was_visited := false
    _motion_primitive_index := indeterminate }

/-- The member function `NodeLattice::reset` (lines 228-237). -/
def NodeLattice.reset (n : NodeLattice) : NodeLattice :=
  { n with
    parent := none
    _cell_cost := .nan
    _accumulated_cost := .finite FLT_MAX
    _was_visited := false
    pose := ⟨0, 0, 0⟩ }

/-- The accessor `setPose`. -/
def NodeLattice.setPose (n : NodeLattice) (c : Coordinates) : NodeLattice := { n with pose := c }

/-- The accessor `wasVisited`. -/
def NodeLattice.wasVisited (n : NodeLattice) : Bool := n._was_visited

/-- The accessor `setMotionPrimitiveIndex`. -/
def NodeLattice.setMotionPrimitiveIndex (n : NodeLattice) (i : Nat) : NodeLattice :=
  { n with _motion_primitive_index := i }

/-- Modelled from the spec: the collision checker, whose class is declared outside these
sources, "exposing `inCollision(x, y, thetaRadians, allowUnknown) -> bool` and
`getCost() -> float`".  `answer` is what the checker finds at a pose (collision or not, and the
cost it keeps for `getCost`); `queries` records the `inCollision` calls made so far, oldest
first; `lastCost` is the cost kept by the latest call. -/
structure GridCollisionChecker where
  answer : ℚ → ℚ → ℚ → Bool → Bool × FloatVal
  queries : List (ℚ × ℚ × ℚ × Bool)
  lastCost : FloatVal

/-- The call `inCollision(x, y, theta, traverse_unknown)`. -/
def GridCollisionChecker.inCollision (c : GridCollisionChecker) (x y theta : ℚ)
    (traverse_unknown : Bool) : Bool × GridCollisionChecker :=
  ((c.answer x y theta traverse_unknown).1,
   { c with
     queries := c.queries ++ [(x, y, theta, traverse_unknown)]
     lastCost := (c.answer x y theta traverse_unknown).2 })

/-- The call `getCost()`. -/
def GridCollisionChecker.getCost (c : GridCollisionChecker) : FloatVal := c.lastCost

/-- The member function `NodeLattice::isNodeValid` (lines 239-258); `bin_size` is the member of
the shared motion table it reads. -/
def NodeLattice.isNodeValid (n : NodeLattice) (bin_size : ℚ) (traverse_unknown : Bool)
    (collision_checker : GridCollisionChecker) : Bool × NodeLattice × GridCollisionChecker :=
  if !n._cell_cost.isnan then
    (n._cell_cost.toBool, n, collision_checker)
  else
    match collision_checker.inCollision n.pose.x n.pose.y (n.pose.theta * bin_size)
        traverse_unknown with
    | (true, checker1) => (false, n, checker1)
    | (false, checker1) => (true, { n with _cell_cost := checker1.getCost }, checker1)

/-- The member function `LatticeMotionTable::getProjections` (lines 156-184). -/
def LatticeMotionTable.getProjections (t : LatticeMotionTable) (node : NodeLattice) :
    Except Err MotionPoses × LatticeMotionTable :=
  let (bin, m) := t.angleToProjections.index node.pose.theta
  let t := { t with angleToProjections := m }
  let size := bin.length
  if size = 0 then
    (.error .zeroSizeProjections, t)
  else
    (.ok (bin.map fun projection =>
      let new_heading := projection._theta + node.pose.theta
      ⟨node.pose.x + projection._x, node.pose.y + projection._y, new_heading⟩), t)

/-- The member function `NodeLattice::getTraversalCost` (lines 260-264). -/
def NodeLattice.getTraversalCost (_n : NodeLattice) (_child : NodeLattice) : ℚ := 0

/-! ## Heuristics -/

/-- The C function `round`: the nearest integer, halves away from zero. -/
def cround (q : ℚ) : Int :=
  if 0 ≤ q then Int.floor (q + 1 / 2) else Int.ceil (q - 1 / 2)

/-- The conversion of an `unsigned int` expression to `int`: reduction modulo `2^32` into the
signed range. -/
def toInt32 (z : Int) : Int := (z + 2 ^ 31) % 2 ^ 32 - 2 ^ 31

/-- Unchecked element access `v[i]` of a vector with an `int` or truncated `float` index: `none`
(no defined result) when the index is negative or past the end. -/
def vectorAt {α : Type} (v : List α) (i : Int) : Option α :=
  if i < 0 then none else v.get? i.toNat

/-- The static members of `NodeHybrid` that the distance heuristic reads; they are declared and
filled outside these sources. -/
structure NodeHybrid where
  size_lookup : ℚ
  dist_heuristic_lookup_table : List ℚ

/-- The local `node_coords_relative` of `NodeLattice::getDistanceHeuristic` (lines 290-306): the
node de-rotated by the goal heading and translated so that the goal is at the origin, each
component rounded.  No defined result when the goal heading does not index `trig_values`. -/
def node_coords_relative (t : LatticeMotionTable) (node_coords goal_coords : Coordinates) :
    Except Err Coordinates :=
  match vectorAt t.trig_values (truncate goal_coords.theta) with
  | none => .error .undefinedBehaviour
  | some trig_vals =>
    let cos_th := trig_vals.1
    let sin_th := -trig_vals.2
    let dx := node_coords.x - goal_coords.x
    let dy := node_coords.y - goal_coords.y
    let dtheta_bin0 := node_coords.theta - goal_coords.theta
    let dtheta_bin :=
      if dtheta_bin0 > t.num_angle_quantization then dtheta_bin0 - t.num_angle_quantization
      else if dtheta_bin0 < 0 then dtheta_bin0 + t.num_angle_quantization
      else dtheta_bin0
    .ok ⟨cround (dx * cos_th - dy * sin_th), cround (dx * sin_th + dy * cos_th), cround dtheta_bin⟩

/-- The member function `NodeLattice::getDistanceHeuristic` (lines 278-342). -/
def NodeLattice.getDistanceHeuristic (t : LatticeMotionTable) (hybrid : NodeHybrid)
    (node_coords goal_coords : Coordinates) (obstacle_heuristic : ℚ) : Except Err ℚ :=
  match node_coords_relative t node_coords goal_coords with
  | .error e => .error e
  | .ok rel =>
    let floored_size : Int := Int.floor (hybrid.size_lookup / 2)
    let ceiling_size : Int := Int.ceil (hybrid.size_lookup / 2)
    let mirrored_relative_y : ℚ := |rel.y|
    if |rel.x| < floored_size ∧ mirrored_relative_y < floored_size then
      let theta_pos : Int :=
        if rel.y < 0 then truncate (t.num_angle_quantization - rel.theta)
        else truncate rel.theta
      let x_pos : Int := truncate (rel.x + floored_size)
      let y_pos : Int := truncate mirrored_relative_y
      let index : Int := toInt32
        (x_pos * ceiling_size * t.num_angle_quantization +
         y_pos * t.num_angle_quantization +
         theta_pos)
      match vectorAt hybrid.dist_heuristic_lookup_table index with
      | none => .error .undefinedBehaviour
      | some motion_heuristic => .ok motion_heuristic
    else if obstacle_heuristic = 0 then
      .ok (t.state_space
        (node_coords.x, node_coords.y, node_coords.theta * t.num_angle_quantization)
        (goal_coords.x, goal_coords.y, goal_coords.theta * t.num_angle_quantization))
    else
      .ok 0

/-- The member function `NodeLattice::getHeuristicCost` (lines 266-276).  The obstacle heuristic
`getObstacleHeuristic` is inherited from outside these sources and is a parameter, as is the type
of cost maps. -/
def NodeLattice.getHeuristicCost {Costmap : Type}
    (getObstacleHeuristic : Costmap → Coordinates → Coordinates → ℚ)
    (t : LatticeMotionTable) (hybrid : NodeHybrid)
    (node_coords goal_coords : Coordinates) (costmap : Costmap) : Except Err ℚ :=
  let obstacle_heuristic := getObstacleHeuristic costmap node_coords goal_coords
  match NodeLattice.getDistanceHeuristic t hybrid node_coords goal_coords obstacle_heuristic with
  | .error e => .error e
  | .ok distance_heuristic => .ok (max obstacle_heuristic distance_heuristic)

/-! ## Entry point and successors -/

/-- The enumeration `MotionModel` of the planner, declared outside these sources; the source
names only `STATE_LATTICE`. -/
inductive MotionModel
  | UNKNOWN
  | VON_NEUMANN
  | MOORE
  | DUBIN
  | REEDS_SHEPP
  | STATE_LATTICE
  deriving DecidableEq, Repr

/-- The static member function `NodeLattice::initMotionModel` (lines 344-358), acting on the
shared motion table. -/
def NodeLattice.initMotionModel (motion_model : MotionModel) (fs : FileSystem)
    (motion_table : LatticeMotionTable) (size_x : Nat) (search_info : SearchInfo) :
    Except Err Unit × LatticeMotionTable :=
  if motion_model ≠ MotionModel.STATE_LATTICE then
    (.error .invalidMotionModel, motion_table)
  else
    motion_table.initMotionModel fs size_x search_info

/-- The vertex pool of the search engine: the vertex behind each pointer.  Pointers are
natural numbers. -/
abbrev NodePool := Nat → NodeLattice

/-- The type `NodeVector`, a vector of vertex pointers. -/
abbrev NodeVector := List Nat

/-- What `getNeighbors` reads and writes besides the motion table: the output vector, the
vertices behind the pointers, and the collision checker. -/
structure NeighborsState where
  neighbors : NodeVector
  pool : NodePool
  checker : GridCollisionChecker

/-- The conversion `static_cast<unsigned int>` of a `float`: truncation, with no defined result
when the truncated value is negative or does not fit 32 bits. -/
def castUnsigned (q : ℚ) : Option Nat :=
  if 0 ≤ truncate q ∧ truncate q < 2 ^ 32 then some (truncate q).toNat else none

/-- The body of the loop of `NodeLattice::getNeighbors` (lines 372-392) for the projection at
position `i`.  `getIndex` is the static `NodeLattice::getIndex`, declared outside these sources;
`NeighborGetter` yields the pointer it stores into `neighbor` when it returns true, and `none`
when it returns false. -/
def neighborStep (getIndex : Nat → Nat → Nat → Nat) (NeighborGetter : Nat → Option Nat)
    (bin_size : ℚ) (traverse_unknown : Bool) (i : Nat) (projection : MotionPose)
    (s : NeighborsState) : Except Err Unit × NeighborsState :=
  match castUnsigned projection._x, castUnsigned projection._y,
      castUnsigned projection._theta with
  | some x, some y, some theta =>
    let index := getIndex x y theta
    match NeighborGetter index with
    | none => (.ok (), s)
    | some neighbor =>
      if (s.pool neighbor).wasVisited then
        (.ok (), s)
      else
        let posed := (s.pool neighbor).setPose ⟨projection._x, projection._y, projection._theta⟩
        match posed.isNodeValid bin_size traverse_unknown s.checker with
        | (true, checked, checker1) =>
          (.ok (),
            { neighbors := s.neighbors ++ [neighbor]
              pool := Function.update s.pool neighbor (checked.setMotionPrimitiveIndex i)
              checker := checker1 })
        | (false, checked, checker1) =>
          (.ok (),
            { neighbors := s.neighbors
              pool := Function.update s.pool neighbor checked
              checker := checker1 })
  | _, _, _ => (.error .undefinedBehaviour, s)

/-- The loop of `NodeLattice::getNeighbors` over the projections, from position `i` on. -/
def neighborsLoop (getIndex : Nat → Nat → Nat → Nat) (NeighborGetter : Nat → Option Nat)
    (bin_size : ℚ) (traverse_unknown : Bool) :
    List MotionPose → Nat → NeighborsState → Except Err Unit × NeighborsState
  | [], _, s => (.ok (), s)
  | projection :: rest, i, s =>
    match neighborStep getIndex NeighborGetter bin_size traverse_unknown i projection s with
    | (.error e, s1) => (.error e, s1)
    | (.ok _, s1) => neighborsLoop getIndex NeighborGetter bin_size traverse_unknown rest (i + 1) s1

/-- The member function `NodeLattice::getNeighbors` (lines 360-394) of the vertex `node`. -/
def NodeLattice.getNeighbors (node : NodeLattice) (getIndex : Nat → Nat → Nat → Nat)
    (NeighborGetter : Nat → Option Nat) (traverse_unknown : Bool) (s : NeighborsState)
    (motion_table : LatticeMotionTable) :
    Except Err Unit × NeighborsState × LatticeMotionTable :=
  match motion_table.getProjections node with
  | (.error e, table1) => (.error e, s, table1)
  | (.ok motion_projections, table1) =>
    ((neighborsLoop getIndex NeighborGetter table1.bin_size traverse_unknown
        motion_projections 0 s).1,
     (neighborsLoop getIndex NeighborGetter table1.bin_size traverse_unknown
        motion_projections 0 s).2,
     table1)

/-! ## Vocabulary for stating the properties -/

/-- The primitives of a list of document entries: each entry parsed by `from_json_to_primitive`
into a fresh primitive, in document order (the loop of `test_lattice_node.cpp` lines 55-61);
the error of the first entry that fails. -/
def parsePrimitives : List Json → Except Err (List Primitive)
  | [] => .ok []
  | j :: js =>
    match from_json_to_primitive j Primitive.fresh with
    | (.error e, _) => .error e
    | (.ok _, p) =>
      match parsePrimitives js with
      | .error e => .error e
      | .ok ps => .ok (p :: ps)

/-- The primitive library of a document: the parsed entries of its member `primitives`. -/
def libraryPrimitives (j : Json) : Except Err (List Primitive) :=
  match j.index "primitives" with
  | .error e => .error e
  | .ok primitives => parsePrimitives primitives.items

/-- The terminal projection of a primitive: the position of its last pose with its end angle.
Meant for primitives that have a pose. -/
def Primitive.terminal (p : Primitive) : MotionPose :=
  ⟨(p.poses.getLastD MotionPose.fresh)._x, (p.poses.getLastD MotionPose.fresh)._y, p.endAngle⟩

/-- The terminal projections of the primitives of a library whose start angle is exactly `a`, in
library order. -/
def projectionsOf (L : List Primitive) (a : ℚ) : MotionPoses :=
  (L.filter fun p => p.startAngle = a).map Primitive.terminal

/-- The loop of `binLoop` on primitives that are already parsed and have a pose. -/
def binFold : List Primitive → ℚ → MotionPoses → ProjectionMap → ℚ × MotionPoses × ProjectionMap
  | [], prevStartAngle, projections, m => (prevStartAngle, projections, m)
  | p :: rest, prevStartAngle, projections, m =>
    binFold rest
      (if prevStartAngle ≠ p.startAngle then p.startAngle else prevStartAngle)
      ((if prevStartAngle ≠ p.startAngle then [] else projections) ++ [p.terminal])
      (if prevStartAngle ≠ p.startAngle then m.assign prevStartAngle projections else m)

/-- The map after `binFold` and the final assignment of line 132. -/
def binResult (L : List Primitive) (prev : ℚ) (projections : MotionPoses) (m : ProjectionMap) :
    ProjectionMap :=
  (binFold L prev projections m).2.2.assign (binFold L prev projections m).1
    (binFold L prev projections m).2.1

/-- The run of `a` that is open at the head of a list of start angles is its last: once a
different angle has appeared, `a` does not occur again. -/
def endsRun (a : ℚ) (angles : List ℚ) : Bool :=
  (angles.dropWhile fun b => b == a).all fun b => b != a

/-- A list of start angles in which all occurrences of an angle form one contiguous run. -/
def contiguousRuns : List ℚ → Bool
  | [] => true
  | a :: rest => endsRun a rest && contiguousRuns rest

/-- A map holds a non-empty bin under a key. -/
def ProjectionMap.hasBin (m : ProjectionMap) (key : ℚ) : Prop :=
  ∃ bin, m key = some bin ∧ bin ≠ []

/-- The pose tuple `[x, y, theta]` that a well-formed document holds for a pose. -/
def MotionPose.toJson (p : MotionPose) : Json := .arr [.num p._x, .num p._y, .num p._theta]

/-- The member `latticeMetadata` of a well-formed document, for given metadata. -/
def LatticeMetadata.toJson (md : LatticeMetadata) : Json :=
  .obj [("gridSeparation", .num md.gridSeparation),
    ("headingAngles", .arr (md.headingAngles.map Json.num)),
    ("maxLength", .num md.maxLength),
    ("numberOfHeadings", .num md.numberOfHeadings),
    ("numberOfTrajectories", .num md.numberOfTrajectories),
    ("outputFile", .str md.outputFile),
    ("stepDistance", .num md.stepDistance),
    ("turningRadius", .num md.turningRadius)]

/-- The entry of `primitives` that a well-formed document holds for a primitive. -/
def Primitive.toJson (p : Primitive) : Json :=
  .obj [("arcLength", .num p.arcLength),
    ("endAngle", .num p.endAngle),
    ("poses", .arr (p.poses.map MotionPose.toJson)),
    ("radius", .num p.radius),
    ("startAngle", .num p.startAngle),
    ("straightLength", .num p.straightLength),
    ("trajectoryId", .num p.trajectoryId),
    ("trajectoryLength", .num p.trajectoryLength)]

/-- The vertex pointer that the neighbor lookup yields for a projection: the lookup applied to
the flattened index of the projected pose; `none` when the lookup reports "not found" (or the
index has no defined value). -/
def lookupTarget (getIndex : Nat → Nat → Nat → Nat) (NeighborGetter : Nat → Option Nat)
    (projection : MotionPose) : Option Nat :=
  match castUnsigned projection._x, castUnsigned projection._y,
      castUnsigned projection._theta with
  | some x, some y, some theta => NeighborGetter (getIndex x y theta)
  | _, _, _ => none

/-- What is known of an entry `kp = (k, pointer)` that the loop of `getNeighbors`, run over the
projections `ps` from position `i` and state `s`, has appended for the projection at place `k`
of `ps`: the lookup yields the pointer for that projection; the vertex was not visited; the
validity check of the vertex, posed at the projection and run in the state reached after the
first `k` projections, returned true; and, if no later projection is looked up to the same
pointer, the vertex ends with motion-primitive index `i + k` and the pose of the projection. -/
def AppendedBy (getIndex : Nat → Nat → Nat → Nat) (NeighborGetter : Nat → Option Nat)
    (bin_size : ℚ) (traverse_unknown : Bool) (ps : List MotionPose) (i : Nat)
    (s : NeighborsState) (kp : Nat × Nat) : Prop :=
  ∃ projection, ps.get? kp.1 = some projection ∧
    lookupTarget getIndex NeighborGetter projection = some kp.2 ∧
    (s.pool kp.2).wasVisited = false ∧
    ((((neighborsLoop getIndex NeighborGetter bin_size traverse_unknown (ps.take kp.1) i
          s).2.pool kp.2).setPose ⟨projection._x, projection._y,
        projection._theta⟩).isNodeValid bin_size traverse_unknown
      (neighborsLoop getIndex NeighborGetter bin_size traverse_unknown (ps.take kp.1) i
        s).2.checker).1 = true ∧
    ((∀ k2 p2, kp.1 < k2 → ps.get? k2 = some p2 →
        lookupTarget getIndex NeighborGetter p2 ≠ some kp.2) →
      ((neighborsLoop getIndex NeighborGetter bin_size traverse_unknown ps i
        s).2.pool kp.2)._motion_primitive_index = i + kp.1 ∧
      ((neighborsLoop getIndex NeighborGetter bin_size traverse_unknown ps i
        s).2.pool kp.2).pose = ⟨projection._x, projection._y, projection._theta⟩)

/-- The heading index `theta_pos` that `getDistanceHeuristic` computes for a rounded relative
offset (lines 317-322). -/
def lookupThetaPos (num_angle_quantization : Nat) (rel : Coordinates) : Int :=
  if rel.y < 0 then truncate (num_angle_quantization - rel.theta) else truncate rel.theta

/-- The index `x_pos` that `getDistanceHeuristic` computes (line 323). -/
def lookupXPos (size_lookup : ℚ) (rel : Coordinates) : Int :=
  truncate (rel.x + (Int.floor (size_lookup / 2) : Int))

/-- The index `y_pos` that `getDistanceHeuristic` computes (lines 314, 324). -/
def lookupYPos (rel : Coordinates) : Int := truncate |rel.y|

/-- The flattened index that `getDistanceHeuristic` computes (lines 325-328), as an integer
before its conversion to `int`. -/
def lookupFlatIndex (size_lookup : ℚ) (num_angle_quantization : Nat) (rel : Coordinates) : Int :=
  lookupXPos size_lookup rel * Int.ceil (size_lookup / 2) * num_angle_quantization +
    lookupYPos rel * num_angle_quantization +
    lookupThetaPos num_angle_quantization rel

/-- The state of the curve space that a pose stands for: its position, and its heading bin
turned into an angle by `bin_size`, as `isNodeValid` does at line 251. -/
def poseState (bin_size : ℚ) (c : Coordinates) : ℚ × ℚ × ℚ := (c.x, c.y, c.theta * bin_size)

/-! ## Concrete inputs -/

/-- The pose tuple `[x, y, theta]` of a document. -/
def poseEntry (x y theta : ℚ) : Json := .arr [.num x, .num y, .num theta]

/-- A primitive entry of a document with the given start angle, end angle and pose tuples, the
other members as in the first primitive of the test library. -/
def primitiveEntry (startAngle endAngle : ℚ) (poses : List Json) : Json :=
  .obj [("arcLength", .num 0), ("endAngle", .num endAngle), ("poses", .arr poses),
    ("radius", .num 0), ("startAngle", .num startAngle), ("straightLength", .num 0.2),
    ("trajectoryId", .num 0), ("trajectoryLength", .num 0.2)]

/-- The metadata of the test library (heading list shortened to two entries). -/
def sampleMetadata : Json :=
  .obj [("gridSeparation", .num 0.05), ("headingAngles", .arr [.num (-180), .num 0]),
    ("maxLength", .num 1), ("numberOfHeadings", .num 16), ("numberOfTrajectories", .num 1),
    ("outputFile", .str "output.json"), ("stepDistance", .num 0.005),
    ("turningRadius", .num 0.4)]

/-- The library with the single primitive of the test scenario. -/
def sampleDocument : Json :=
  .obj [("latticeMetadata", sampleMetadata),
    ("primitives", .arr [primitiveEntry 0 0 [poseEntry 0 0 0, poseEntry 0.06667 0 0]])]

/-- The parsed primitive of `sampleDocument`. -/
def samplePrimitive : Primitive :=
  ⟨0, 0, 0, 0, 0.2, 0, 0.2, [⟨0, 0, 0⟩, ⟨0.06667, 0, 0⟩]⟩

/-- A file system that holds `sampleDocument` under every path. -/
def sampleFiles : FileSystem := fun _ => .document sampleDocument

/-- The search configuration of the test. -/
def sampleInfo : SearchInfo := ⟨1, 1, 1, 1, 1, "output.json"⟩

/-- A freshly constructed motion table: no bins; 16 heading bins, one trigonometric entry for
heading 0, and a curve distance that is zero everywhere. -/
def freshTable : LatticeMotionTable :=
  { size_x := 0, change_penalty := 0, non_straight_penalty := 0, cost_penalty := 0,
    reverse_penalty := 0, obstacle_heuristic_cost_weight := 0, current_lattice_filepath := "",
    angleToProjections := fun _ => none,
    latticeMetadata := ⟨0, 0, 0, 0, 0, "", [], 0⟩,
    min_turning_radius := 0, headingAngles := [], num_angle_quantization := 16, bin_size := 1,
    trig_values := [(1, 0)], state_space := fun _ _ => 0 }

/-- A checker that finds no collision anywhere and reports cost 0. -/
def freeChecker : GridCollisionChecker :=
  { answer := fun _ _ _ _ => (false, .finite 0), queries := [], lastCost := .nan }

/-- A checker that finds a collision everywhere. -/
def blockedChecker : GridCollisionChecker :=
  { answer := fun _ _ _ _ => (true, .finite 254), queries := [], lastCost := .nan }

/-- A table whose only bin, under heading 350, holds the projection `(1, 2, 20)`. -/
def turnTable : LatticeMotionTable :=
  { freshTable with
    angleToProjections := fun a => if a = 350 then some [⟨1, 2, 20⟩] else none }

/-- A vertex with pose `(10, 20, 350)`. -/
def turnNode : NodeLattice := (NodeLattice.construct 0 0).setPose ⟨10, 20, 350⟩

/-- A vertex that was expanded: parent set, costs cached, visited. -/
def usedNode : NodeLattice :=
  { parent := some 3, pose := ⟨4, 5, 6⟩, _cell_cost := .finite 10, _accumulated_cost := .finite 42,
    _index := 7, _was_visited := true, _motion_primitive_index := 2 }

/-- No lookup window (`size_lookup` 0) and an empty lookup table. -/
def noWindow : NodeHybrid := { size_lookup := 0, dist_heuristic_lookup_table := [] }

/-- A table with 4 heading bins (otherwise `freshTable`). -/
def quadTable : LatticeMotionTable := { freshTable with num_angle_quantization := 4 }

/-- A lookup window of size 6 over 4 heading bins: 72 entries, entry `i` holding `i - 36`, so
that the entry of the zero offset (index 36) is 0. -/
def smallWindow : NodeHybrid :=
  { size_lookup := 6, dist_heuristic_lookup_table := (List.range 72).map fun i => (i : ℚ) - 36 }

/-- Modelled from the spec: the wrap of a heading index "into `[0, numberOfHeadings)`". -/
def wrapHeading (numberOfHeadings : Nat) (theta : Int) : Int := theta % numberOfHeadings

/-- A library whose third entry is not a primitive: two primitives with start angles 0 and 90,
then the number 5. -/
def brokenDocument : Json :=
  .obj [("latticeMetadata", sampleMetadata),
    ("primitives", .arr [primitiveEntry 0 0 [poseEntry 0 0 0, poseEntry 0.06667 0 0],
      primitiveEntry 90 90 [poseEntry 0 0 0, poseEntry 0 0.05 90], .num 5])]

/-- A file system that holds `brokenDocument` under every path. -/
def brokenFiles : FileSystem := fun _ => .document brokenDocument

/-- A library whose primitives of start angle 0 do not form one run: start angles 0, 90, 0. -/
def interleavedDocument : Json :=
  .obj [("latticeMetadata", sampleMetadata),
    ("primitives", .arr [primitiveEntry 0 0 [poseEntry 0 0 0, poseEntry 0.06667 0 0],
      primitiveEntry 90 90 [poseEntry 0 0 0, poseEntry 0 0.05 90],
      primitiveEntry 0 0 [poseEntry 0 0 0, poseEntry 0.1 0 0]])]

/-- The parsed primitives of `interleavedDocument`. -/
def interleavedLibrary : List Primitive :=
  [⟨0, 0, 0, 0, 0.2, 0, 0.2, [⟨0, 0, 0⟩, ⟨0.06667, 0, 0⟩]⟩,
   ⟨0, 90, 90, 0, 0.2, 0, 0.2, [⟨0, 0, 0⟩, ⟨0, 0.05, 90⟩]⟩,
   ⟨0, 0, 0, 0, 0.2, 0, 0.2, [⟨0, 0, 0⟩, ⟨0.1, 0, 0⟩]⟩]

/-- A file system that holds `interleavedDocument` under every path. -/
def interleavedFiles : FileSystem := fun _ => .document interleavedDocument

/-- A library with contiguous runs that are not sorted by angle: start angles 90, 0, 0. -/
def twoRunDocument : Json :=
  .obj [("latticeMetadata", sampleMetadata),
    ("primitives", .arr [primitiveEntry 90 90 [poseEntry 0 0 0, poseEntry 0 0.05 90],
      primitiveEntry 0 0 [poseEntry 0 0 0, poseEntry 0.06667 0 0],
      primitiveEntry 0 0 [poseEntry 0 0 0, poseEntry 0.1 0 0]])]

/-- The parsed primitives of `twoRunDocument`. -/
def twoRunLibrary : List Primitive :=
  [⟨0, 90, 90, 0, 0.2, 0, 0.2, [⟨0, 0, 0⟩, ⟨0, 0.05, 90⟩]⟩,
   ⟨0, 0, 0, 0, 0.2, 0, 0.2, [⟨0, 0, 0⟩, ⟨0.06667, 0, 0⟩]⟩,
   ⟨0, 0, 0, 0, 0.2, 0, 0.2, [⟨0, 0, 0⟩, ⟨0.1, 0, 0⟩]⟩]

/-- A file system that holds `twoRunDocument` under every path. -/
def twoRunFiles : FileSystem := fun _ => .document twoRunDocument

/-- A document with valid metadata and no member `primitives`. -/
def noPrimitivesDocument : Json := .obj [("latticeMetadata", sampleMetadata)]

/-- A primitive entry with all seven scalars and no member `poses`. -/
def noPosesEntry : Json :=
  .obj [("arcLength", .num 0), ("endAngle", .num 0), ("radius", .num 0),
    ("startAngle", .num 0), ("straightLength", .num 0.2), ("trajectoryId", .num 0),
    ("trajectoryLength", .num 0.2)]

/-- A table whose bin under heading 0 holds two projections that fall into the same grid cell:
`(0.2, 0, 0)` and `(0.4, 0, 0)`. -/
def doubleTable : LatticeMotionTable :=
  { freshTable with
    angleToProjections := fun a => if a = 0 then some [⟨0.2, 0, 0⟩, ⟨0.4, 0, 0⟩] else none }

/-- A flattened index over a grid of width 100 with 16 heading bins. -/
def gridIndex (x y theta : Nat) : Nat := theta + x * 16 + y * 16 * 100

/-- A checker that finds no collision anywhere and reports cost 1. -/
def costOneChecker : GridCollisionChecker :=
  { answer := fun _ _ _ _ => (false, .finite 1), queries := [], lastCost := .nan }

/-- A search state with an empty output vector, a pool of fresh vertices (the pointer of a vertex
is its index) and `costOneChecker`. -/
def emptySearch : NeighborsState :=
  { neighbors := [], pool := fun pointer => NodeLattice.construct pointer 0,
    checker := costOneChecker }

/-- A table whose bin under heading 0 holds two projections that fall into different grid
cells: `(1.2, 0, 0)` and `(2.4, 0, 0)`. -/
def spreadTable : LatticeMotionTable :=
  { freshTable with
    angleToProjections := fun a => if a = 0 then some [⟨1.2, 0, 0⟩, ⟨2.4, 0, 0⟩] else none }

/-- A library with the single primitive of start angle 90. -/
def quarterDocument : Json :=
  .obj [("latticeMetadata", sampleMetadata),
    ("primitives", .arr [primitiveEntry 90 90 [poseEntry 0 0 0, poseEntry 0 0.05 90]])]

/-- A file system with two libraries: `quarterDocument` under `first.json`, `sampleDocument`
under every other path. -/
def twoFiles : FileSystem := fun path =>
  if path = "first.json" then .document quarterDocument else .document sampleDocument

/-- The search configuration of the test, pointing at `first.json`. -/
def firstInfo : SearchInfo := ⟨1, 1, 1, 1, 1, "first.json"⟩

/-- A vertex with pose `(0, 0, 90)`. -/
def quarterNode : NodeLattice := (NodeLattice.construct 0 0).setPose ⟨0, 0, 90⟩

/-- A table with 4 heading bins and the trigonometric entries of the headings 0, 90, 180 and 270
degrees. -/
def fullQuadTable : LatticeMotionTable :=
  { freshTable with
    num_angle_quantization := 4, trig_values := [(1, 0), (0, 1), (-1, 0), (0, -1)] }

/-- A lookup window of size 4 over 4 heading bins, with a table of exactly `4 * 2 * 4 = 32`
entries, entry `i` holding `i`. -/
def evenWindow : NodeHybrid :=
  { size_lookup := 4, dist_heuristic_lookup_table := (List.range 32).map fun i => (i : ℚ) }

/-- A distance of curve-space states that counts the heading: the sum of the absolute
differences of the three components. -/
def l1Distance (a b : ℚ × ℚ × ℚ) : ℚ := |a.1 - b.1| + |a.2.1 - b.2.1| + |a.2.2 - b.2.2|

/-- A table with 4 heading bins, bin size 1 and `l1Distance` as curve distance. -/
def l1Table : LatticeMotionTable := { quadTable with state_space := l1Distance }

/-! ## Properties -/

/-! ### Projections of a vertex -/

/-- C3: when the heading of the origin vertex has a recorded non-empty bin, `getProjections`
returns a sequence of the same length whose i-th element is the i-th stored projection with the
origin position added to its offset and the origin heading added to its angle, in stored order
and without wrapping the summed heading. -/
theorem getProjections_adds_origin_pose (t : LatticeMotionTable) (node : NodeLattice)
    (bin : MotionPoses) (hbin : t.angleToProjections node.pose.theta = some bin)
    (hne : bin ≠ []) :
    ∃ ps, (t.getProjections node).1 = .ok ps ∧ ps.length = bin.length ∧
      ∀ i p, bin.get? i = some p →
        ps.get? i = some ⟨node.pose.x + p._x, node.pose.y + p._y, node.pose.theta + p._theta⟩ := by
  refine ⟨bin.map fun p =>
    ⟨node.pose.x + p._x, node.pose.y + p._y, node.pose.theta + p._theta⟩, ?_, by simp, ?_⟩
  · have hlen : bin.length ≠ 0 := fun h => hne (List.length_eq_zero.mp h)
    simp [LatticeMotionTable.getProjections, ProjectionMap.index, hbin, hlen, add_comm]
  · intro i p hp
    simp [List.get?_eq_getElem?] at hp ⊢
    exact ⟨p, hp, rfl, rfl, rfl⟩

/-- C3, at the vertex `(10, 20, 350)` and the bin `[(1, 2, 20)]`: the only successor is
`(11, 22, 370)`, heading 370 left as it is. -/
theorem getProjections_adds_origin_pose_witness :
    turnTable.angleToProjections turnNode.pose.theta = some [⟨1, 2, 20⟩] ∧
    ∃ ps, (turnTable.getProjections turnNode).1 = .ok ps ∧ ps.length = 1 ∧
      ∀ i p, [(⟨1, 2, 20⟩ : MotionPose)].get? i = some p →
        ps.get? i = some ⟨turnNode.pose.x + p._x, turnNode.pose.y + p._y,
          turnNode.pose.theta + p._theta⟩ :=
  ⟨by decide, getProjections_adds_origin_pose turnTable turnNode [⟨1, 2, 20⟩] (by decide)
    (by decide)⟩

/-! ### Validity of a vertex -/

/-- C4, at the failing input: on a fresh vertex, with a checker that finds no collision and
reports cost 0, the first `isNodeValid` returns true and the second returns false. -/
theorem isNodeValid_zero_cost_not_stable :
    ((NodeLattice.construct 0 0).isNodeValid 1 false freeChecker).1 = true ∧
    (((NodeLattice.construct 0 0).isNodeValid 1 false freeChecker).2.1.isNodeValid 1 false
      ((NodeLattice.construct 0 0).isNodeValid 1 false freeChecker).2.2).1 = false := by
  decide

/-- C5, at the failing input: on a fresh vertex, with a checker that finds a collision, the
first `isNodeValid` queries the checker once and the second queries it again. -/
theorem isNodeValid_requeries_after_collision :
    ((NodeLattice.construct 0 0).isNodeValid 1 false blockedChecker).2.2.queries =
      [(0, 0, 0, false)] ∧
    (((NodeLattice.construct 0 0).isNodeValid 1 false blockedChecker).2.1.isNodeValid 1 false
      ((NodeLattice.construct 0 0).isNodeValid 1 false blockedChecker).2.2).2.2.queries =
      [(0, 0, 0, false), (0, 0, 0, false)] := by
  simp [NodeLattice.isNodeValid, NodeLattice.construct, blockedChecker,
    GridCollisionChecker.inCollision, FloatVal.isnan]

/-- C6: for a vertex in any state, `reset` followed by `isNodeValid` makes exactly one collision
query, at the pose the vertex then has; it returns false when that query reports a collision and
true otherwise; and the result is the same for every vertex, whatever it had cached. -/
theorem reset_then_isNodeValid_queries_once (n : NodeLattice) (bin_size : ℚ)
    (traverse_unknown : Bool) (c : GridCollisionChecker) :
    (n.reset.isNodeValid bin_size traverse_unknown c).2.2.queries =
      c.queries ++ [(n.reset.pose.x, n.reset.pose.y, n.reset.pose.theta * bin_size,
        traverse_unknown)] ∧
    (n.reset.isNodeValid bin_size traverse_unknown c).1 =
      !(c.answer n.reset.pose.x n.reset.pose.y (n.reset.pose.theta * bin_size)
        traverse_unknown).1 ∧
    ∀ n2 : NodeLattice, (n2.reset.isNodeValid bin_size traverse_unknown c).1 =
      (n.reset.isNodeValid bin_size traverse_unknown c).1 := by
  have key : ∀ v : NodeLattice,
      (v.reset.isNodeValid bin_size traverse_unknown c).2.2.queries =
        c.queries ++ [(0, 0, 0 * bin_size, traverse_unknown)] ∧
      (v.reset.isNodeValid bin_size traverse_unknown c).1 =
        !(c.answer 0 0 (0 * bin_size) traverse_unknown).1 := by
    intro v
    unfold NodeLattice.isNodeValid
    cases h : (c.answer 0 0 0 traverse_unknown).1 <;>
      simp [NodeLattice.reset, FloatVal.isnan, GridCollisionChecker.inCollision, h]
  refine ⟨(key n).1, (key n).2, fun n2 => ?_⟩
  rw [(key n2).2, (key n).2]

/-! ### Reset -/

/-- C7, as the claim states it, fails: after `reset` the accumulated cost is not +infinity. -/
theorem reset_accumulated_cost_not_infinite :
    usedNode.reset._accumulated_cost ≠ FloatVal.posInf := by
  decide

/-- C7, amended: `reset` returns a vertex to the state of a freshly constructed vertex with the
same index (parent none, cell cost NaN, accumulated cost the largest finite float, not visited,
pose `(0, 0, 0)`), the flattened index unchanged, and is idempotent. -/
theorem reset_eq_construct (n : NodeLattice) :
    n.reset = NodeLattice.construct n._index n._motion_primitive_index ∧
    n.reset.parent = none ∧
    n.reset._cell_cost = FloatVal.nan ∧
    n.reset._accumulated_cost = FloatVal.finite FLT_MAX ∧
    n.reset._was_visited = false ∧
    n.reset.pose = ⟨0, 0, 0⟩ ∧
    n.reset._index = n._index ∧
    n.reset.reset = n.reset := by
  simp [NodeLattice.reset, NodeLattice.construct]

/-! ### Heuristic cost -/

/-- C8, as the claim states it, fails: outside the lookup window with obstacle heuristic 3 the
distance heuristic is 0, and the heuristic cost 3 is the sum of the two. -/
theorem getHeuristicCost_is_sum_when_distance_zero :
    NodeLattice.getDistanceHeuristic freshTable noWindow ⟨5, 5, 0⟩ ⟨0, 0, 0⟩ 3 = .ok 0 ∧
    NodeLattice.getHeuristicCost (fun (_ : Unit) _ _ => 3) freshTable noWindow ⟨5, 5, 0⟩
      ⟨0, 0, 0⟩ () = .ok (3 + 0) := by
  constructor <;> with_unfolding_all rfl

/-- C8, amended: whenever the distance heuristic, evaluated with the obstacle heuristic of the
same query, yields `d`, `getHeuristicCost` returns exactly the maximum of the obstacle heuristic
and `d`; the result is at least each of the two, and it equals their sum exactly when the
smaller of the two is zero. -/
theorem getHeuristicCost_eq_max {Costmap : Type}
    (getObstacleHeuristic : Costmap → Coordinates → Coordinates → ℚ)
    (t : LatticeMotionTable) (hybrid : NodeHybrid) (node_coords goal_coords : Coordinates)
    (costmap : Costmap) (d : ℚ)
    (hd : NodeLattice.getDistanceHeuristic t hybrid node_coords goal_coords
      (getObstacleHeuristic costmap node_coords goal_coords) = .ok d) :
    NodeLattice.getHeuristicCost getObstacleHeuristic t hybrid node_coords goal_coords costmap =
      .ok (max (getObstacleHeuristic costmap node_coords goal_coords) d) ∧
    getObstacleHeuristic costmap node_coords goal_coords ≤
      max (getObstacleHeuristic costmap node_coords goal_coords) d ∧
    d ≤ max (getObstacleHeuristic costmap node_coords goal_coords) d ∧
    (max (getObstacleHeuristic costmap node_coords goal_coords) d =
        getObstacleHeuristic costmap node_coords goal_coords + d ↔
      min (getObstacleHeuristic costmap node_coords goal_coords) d = 0) := by
  refine ⟨?_, le_max_left _ _, le_max_right _ _, ?_⟩
  · simp [NodeLattice.getHeuristicCost, hd]
  · rcases le_total (getObstacleHeuristic costmap node_coords goal_coords) d with h | h
    · rw [max_eq_right h, min_eq_left h]
      constructor <;> intro h2 <;> linarith
    · rw [max_eq_left h, min_eq_right h]
      constructor <;> intro h2 <;> linarith

/-- C8, amended, at a query with obstacle heuristic 3 outside the lookup window (distance
heuristic 0): the heuristic cost is `max 3 0`. -/
theorem getHeuristicCost_eq_max_witness :
    NodeLattice.getDistanceHeuristic freshTable noWindow ⟨5, 5, 0⟩ ⟨0, 0, 0⟩ 3 = .ok 0 ∧
    NodeLattice.getHeuristicCost (fun (_ : Unit) _ _ => 3) freshTable noWindow ⟨5, 5, 0⟩
      ⟨0, 0, 0⟩ () = .ok (max 3 0) :=
  ⟨by with_unfolding_all rfl,
   (getHeuristicCost_eq_max (fun (_ : Unit) _ _ => 3) freshTable noWindow ⟨5, 5, 0⟩ ⟨0, 0, 0⟩
      () 0 (by with_unfolding_all rfl)).1⟩

/-- Truncating an integer value leaves it unchanged. -/
theorem truncate_intCast (z : Int) : truncate (z : ℚ) = z := by
  simp [truncate]

/-- C10, as the claim states it, fails: with 4 heading bins and a window of size 6, the offset
`(0, 0, 1)` reads the table entry 37 while its mirrored offset `(0, -0, wrap(4 - 1))` reads the
entry 39. -/
theorem getDistanceHeuristic_not_mirrored_on_axis :
    NodeLattice.getDistanceHeuristic quadTable smallWindow ⟨0, 0, 1⟩ ⟨0, 0, 0⟩ 0 =
      .ok (37 - 36) ∧
    NodeLattice.getDistanceHeuristic quadTable smallWindow ⟨0, -0, wrapHeading 4 (4 - 1)⟩
      ⟨0, 0, 0⟩ 0 = .ok (39 - 36) := by
  constructor <;> with_unfolding_all rfl

/-- C10, amended: for two queries whose rounded relative offsets are `(x, y, theta)` and
`(x, -y, wrap(numberOfHeadings - theta))`, both inside the lookup window, with `y` not zero and
`theta` strictly between 0 and `numberOfHeadings`, `getDistanceHeuristic` returns the same result:
both read the same lookup-table entry, whatever the table holds and whatever the obstacle
heuristics are. -/
theorem getDistanceHeuristic_mirror (t : LatticeMotionTable) (hybrid : NodeHybrid)
    (node1 node2 goal : Coordinates) (obstacle1 obstacle2 : ℚ) (x y theta : Int)
    (hrel1 : node_coords_relative t node1 goal = .ok ⟨x, y, theta⟩)
    (hrel2 : node_coords_relative t node2 goal =
      .ok ⟨x, -y, wrapHeading t.num_angle_quantization (t.num_angle_quantization - theta)⟩)
    (hwinx : |(x : ℚ)| < (Int.floor (hybrid.size_lookup / 2) : Int))
    (hwiny : |(y : ℚ)| < (Int.floor (hybrid.size_lookup / 2) : Int))
    (hy : y ≠ 0) (hpos : 0 < theta) (hlt : theta < t.num_angle_quantization) :
    NodeLattice.getDistanceHeuristic t hybrid node1 goal obstacle1 =
      NodeLattice.getDistanceHeuristic t hybrid node2 goal obstacle2 := by
  have hwrap : wrapHeading t.num_angle_quantization (t.num_angle_quantization - theta) =
      t.num_angle_quantization - theta := by
    unfold wrapHeading
    exact Int.emod_eq_of_lt (by omega) (by omega)
  rw [hwrap] at hrel2
  have hwiny2 : |(-(y : ℚ))| < (Int.floor (hybrid.size_lookup / 2) : Int) := by
    rw [abs_neg]; exact hwiny
  have hcast : (((t.num_angle_quantization : Int) - theta : Int) : ℚ) =
      (t.num_angle_quantization : ℚ) - (theta : ℚ) := by push_cast; ring
  have hback : (t.num_angle_quantization : ℚ) - ((t.num_angle_quantization : ℚ) - (theta : ℚ)) =
      (theta : ℚ) := by ring
  have htr : truncate ((t.num_angle_quantization : ℚ) - (theta : ℚ)) =
      (t.num_angle_quantization : Int) - theta := by
    rw [← hcast, truncate_intCast]
  rcases lt_or_gt_of_ne hy with hneg | hpos2
  · have h1 : ((y : ℚ)) < 0 := by exact_mod_cast hneg
    have h2 : ¬ (-(y : ℚ) < 0) := by linarith
    simp only [NodeLattice.getDistanceHeuristic, hrel1, hrel2, hwinx, hwiny, hwiny2, and_self,
      if_true, h1, h2, if_false, abs_neg, hcast, htr, truncate_intCast]
  · have h1 : ¬ ((y : ℚ)) < 0 := by
      have : (0 : ℚ) < (y : ℚ) := by exact_mod_cast hpos2
      linarith
    have h2 : (-(y : ℚ) < 0) := by
      have : (0 : ℚ) < (y : ℚ) := by exact_mod_cast hpos2
      linarith
    simp only [NodeLattice.getDistanceHeuristic, hrel1, hrel2, hwinx, hwiny, hwiny2, and_self,
      if_true, h1, h2, if_false, abs_neg, hcast, hback, truncate_intCast]

/-- C10, amended, at the offsets `(0, 1, 1)` and `(0, -1, 3)` with 4 heading bins and a window of
size 6: both read the same entry. -/
theorem getDistanceHeuristic_mirror_witness :
    NodeLattice.getDistanceHeuristic quadTable smallWindow ⟨0, 1, 1⟩ ⟨0, 0, 0⟩ 0 =
      NodeLattice.getDistanceHeuristic quadTable smallWindow ⟨0, -1, 3⟩ ⟨0, 0, 0⟩ 0 :=
  getDistanceHeuristic_mirror quadTable smallWindow ⟨0, 1, 1⟩ ⟨0, -1, 3⟩ ⟨0, 0, 0⟩ 0 0 0 1 1
    (by with_unfolding_all rfl) (by with_unfolding_all rfl)
    (by with_unfolding_all decide) (by with_unfolding_all decide)
    (by decide) (by decide) (by decide)

/-! ### Building the bins -/

/-- The last element of a non-empty list, as `getLast?` and as `getLastD` give it. -/
theorem getLast?_eq_some_getLastD {α : Type} (l : List α) (d : α) (h : l ≠ []) :
    l.getLast? = some (l.getLastD d) := by
  cases l with
  | nil => exact absurd rfl h
  | cons a as => simp [List.getLast?_cons, List.getLastD_cons]

/-- On entries that parse to primitives with poses, the loop over the document is the loop over
the parsed primitives. -/
theorem binLoop_eq_binFold (js : List Json) :
    ∀ (L : List Primitive) (prev : ℚ) (projections : MotionPoses) (m : ProjectionMap),
      parsePrimitives js = .ok L → (∀ p ∈ L, p.poses ≠ []) →
      binLoop js prev projections m =
        (.ok ((binFold L prev projections m).1, (binFold L prev projections m).2.1),
          (binFold L prev projections m).2.2) := by
  induction js with
  | nil =>
    intro L prev projections m hL _
    simp [parsePrimitives] at hL
    subst hL
    simp [binLoop, binFold]
  | cons j js ih =>
    intro L prev projections m hL hposes
    rcases hfp : from_json_to_primitive j Primitive.fresh with ⟨r, p⟩
    cases r with
    | error e => simp [parsePrimitives, hfp] at hL
    | ok u =>
      cases hrest : parsePrimitives js with
      | error e => simp [parsePrimitives, hfp, hrest] at hL
      | ok L2 =>
        simp [parsePrimitives, hfp, hrest] at hL
        subst hL
        have hp : p.poses ≠ [] := hposes p (List.mem_cons_self _ _)
        have hlast := getLast?_eq_some_getLastD p.poses MotionPose.fresh hp
        have hrec := ih L2
          (if prev ≠ p.startAngle then p.startAngle else prev)
          ((if prev ≠ p.startAngle then [] else projections) ++ [p.terminal])
          (if prev ≠ p.startAngle then m.assign prev projections else m)
          hrest (fun q hq => hposes q (List.mem_cons_of_mem _ hq))
        simp only [binLoop, hfp, hlast, binFold]
        exact hrec

/-- The bins that `initMotionModel` leaves in the table, for a document whose primitives parse
and have poses: the result of the loop over the parsed primitives, started from the bins the
table had. -/
theorem initMotionModel_angleToProjections (fs : FileSystem) (t : LatticeMotionTable)
    (size_x_in : Nat) (search_info : SearchInfo) (j : Json) (L : List Primitive)
    (hfile : fs search_info.lattice_filepath = .document j)
    (hlib : libraryPrimitives j = .ok L) (hposes : ∀ p ∈ L, p.poses ≠ []) :
    (t.initMotionModel fs size_x_in search_info).2.angleToProjections =
      binResult L 0 [] t.angleToProjections := by
  unfold libraryPrimitives at hlib
  cases hidx : j.index "primitives" with
  | error e => simp [hidx] at hlib
  | ok primitives =>
    simp only [hidx] at hlib
    have hloop := binLoop_eq_binFold primitives.items L 0 [] t.angleToProjections hlib hposes
    unfold LatticeMotionTable.initMotionModel
    simp only [hfile, hidx, hloop]
    cases hmeta : j.index "latticeMetadata" with
    | error e => rfl
    | ok jm =>
      simp only []
      rcases hmd : from_json_to_metaData jm t.latticeMetadata with ⟨r, md⟩
      cases r <;> rfl

/-- One step of `binResult`. -/
theorem binResult_cons (p : Primitive) (rest : List Primitive) (prev : ℚ)
    (projections : MotionPoses) (m : ProjectionMap) :
    binResult (p :: rest) prev projections m =
      binResult rest
        (if prev ≠ p.startAngle then p.startAngle else prev)
        ((if prev ≠ p.startAngle then [] else projections) ++ [p.terminal])
        (if prev ≠ p.startAngle then m.assign prev projections else m) := rfl

/-- The value of a map after an assignment. -/
theorem assign_apply (m : ProjectionMap) (key : ℚ) (value : MotionPoses) (a : ℚ) :
    m.assign key value a = if a = key then some value else m a := by
  unfold ProjectionMap.assign
  by_cases h : a = key
  · subst h; simp
  · simp [Function.update, h]

/-- The non-empty bins of a map after an assignment. -/
theorem hasBin_assign (m : ProjectionMap) (key : ℚ) (value : MotionPoses) (a : ℚ) :
    (m.assign key value).hasBin a ↔ if a = key then value ≠ [] else m.hasBin a := by
  unfold ProjectionMap.hasBin
  rw [assign_apply]
  by_cases h : a = key
  · simp [h]
  · simp [h]

/-- After the loop and the final assignment, a key holds a non-empty bin exactly when it is the
start angle of a primitive of the loop, or it held one before (for the open key: when the
projections collected so far are not empty). -/
theorem binResult_hasBin_iff (L : List Primitive) :
    ∀ (prev : ℚ) (projections : MotionPoses) (m : ProjectionMap) (a : ℚ),
      (binResult L prev projections m).hasBin a ↔
        a ∈ L.map Primitive.startAngle ∨
          (if a = prev then projections ≠ [] else m.hasBin a) := by
  induction L with
  | nil =>
    intro prev projections m a
    simp only [List.map_nil, List.not_mem_nil, false_or]
    exact hasBin_assign m prev projections a
  | cons p rest ih =>
    intro prev projections m a
    rw [binResult_cons, ih]
    by_cases hprev : prev = p.startAngle
    · subst hprev
      by_cases ha : a = p.startAngle
      · subst ha; simp
      · simp [ha]
    · by_cases ha : a = p.startAngle
      · subst ha; simp [hprev]
      · simp only [hprev, ne_eq, not_false_eq_true, if_true, ha, if_false, List.map_cons,
          List.mem_cons, false_or, hasBin_assign]

/-- When `getProjections` succeeds, fails, and what it never returns, in terms of the bin stored
under the heading of the vertex. -/
theorem getProjections_ok_iff_hasBin (t : LatticeMotionTable) (node : NodeLattice) :
    ((∃ ps, (t.getProjections node).1 = .ok ps ∧ ps ≠ []) ↔
      t.angleToProjections.hasBin node.pose.theta) ∧
    (∀ ps, (t.getProjections node).1 = .ok ps → ps ≠ []) ∧
    (¬ t.angleToProjections.hasBin node.pose.theta →
      (t.getProjections node).1 = .error .zeroSizeProjections) := by
  unfold ProjectionMap.hasBin
  cases hbin : t.angleToProjections node.pose.theta with
  | none =>
    simp [LatticeMotionTable.getProjections, ProjectionMap.index, hbin]
  | some bin =>
    by_cases hne : bin = []
    · subst hne
      simp [LatticeMotionTable.getProjections, ProjectionMap.index, hbin]
    · have hlen : bin.length ≠ 0 := fun h => hne (List.length_eq_zero.mp h)
      simp [LatticeMotionTable.getProjections, ProjectionMap.index, hbin, hlen, hne]

/-- C1: for a library whose primitives all have a pose, loaded into a freshly constructed motion
table, and for every vertex: `getProjections` succeeds with a non-empty sequence if and only if
the heading of the vertex is exactly the start angle of some primitive of the library; it never
returns an empty sequence, and for every other heading it fails with the error
"Zero size projections". -/
theorem getProjections_succeeds_iff_start_angle (fs : FileSystem) (t : LatticeMotionTable)
    (size_x_in : Nat) (search_info : SearchInfo) (j : Json) (L : List Primitive)
    (node : NodeLattice)
    (hfresh : t.angleToProjections = fun _ => none)
    (hfile : fs search_info.lattice_filepath = .document j)
    (hlib : libraryPrimitives j = .ok L) (hposes : ∀ p ∈ L, p.poses ≠ [])
    (_hinit : (t.initMotionModel fs size_x_in search_info).1 = .ok ()) :
    ((∃ ps, ((t.initMotionModel fs size_x_in search_info).2.getProjections node).1 = .ok ps ∧
        ps ≠ []) ↔ node.pose.theta ∈ L.map Primitive.startAngle) ∧
    (∀ ps, ((t.initMotionModel fs size_x_in search_info).2.getProjections node).1 = .ok ps →
      ps ≠ []) ∧
    (node.pose.theta ∉ L.map Primitive.startAngle →
      ((t.initMotionModel fs size_x_in search_info).2.getProjections node).1 =
        .error .zeroSizeProjections) := by
  have hbins := initMotionModel_angleToProjections fs t size_x_in search_info j L hfile hlib hposes
  have hiff : (t.initMotionModel fs size_x_in search_info).2.angleToProjections.hasBin
      node.pose.theta ↔ node.pose.theta ∈ L.map Primitive.startAngle := by
    rw [hbins, binResult_hasBin_iff, hfresh]
    simp [ProjectionMap.hasBin]
  obtain ⟨h1, h2, h3⟩ :=
    getProjections_ok_iff_hasBin (t.initMotionModel fs size_x_in search_info).2 node
  exact ⟨h1.trans hiff, h2, fun hnot => h3 (fun hb => hnot (hiff.mp hb))⟩

/-- C1, at the test library (one primitive, start angle 0) and a vertex with heading 0. -/
theorem getProjections_succeeds_iff_start_angle_witness :
    (freshTable.initMotionModel sampleFiles 100 sampleInfo).1 = .ok () ∧
    ((∃ ps, ((freshTable.initMotionModel sampleFiles 100 sampleInfo).2.getProjections
        (NodeLattice.construct 0 0)).1 = .ok ps ∧ ps ≠ []) ↔
      (NodeLattice.construct 0 0).pose.theta ∈ [samplePrimitive].map Primitive.startAngle) :=
  ⟨rfl, (getProjections_succeeds_iff_start_angle sampleFiles freshTable 100 sampleInfo
    sampleDocument [samplePrimitive] (NodeLattice.construct 0 0) rfl rfl rfl
    (by decide) rfl).1⟩

/-- A key that is not a start angle of the library has no projections there. -/
theorem projectionsOf_eq_nil (L : List Primitive) (a : ℚ)
    (h : a ∉ L.map Primitive.startAngle) : projectionsOf L a = [] := by
  unfold projectionsOf
  rw [List.map_eq_nil_iff, List.filter_eq_nil_iff]
  intro p hp
  simp only [decide_eq_true_eq]
  intro hpa
  exact h (List.mem_map.mpr ⟨p, hp, hpa⟩)

/-- The projections of a library that starts with a primitive of start angle `a`. -/
theorem projectionsOf_cons_eq (p : Primitive) (rest : List Primitive) :
    projectionsOf (p :: rest) p.startAngle = p.terminal :: projectionsOf rest p.startAngle := by
  simp [projectionsOf]

/-- The projections of a library that starts with a primitive of another start angle. -/
theorem projectionsOf_cons_ne (p : Primitive) (rest : List Primitive) (a : ℚ)
    (h : a ≠ p.startAngle) : projectionsOf (p :: rest) a = projectionsOf rest a := by
  have h2 : ¬ p.startAngle = a := fun e => h e.symm
  simp [projectionsOf, h2]

/-- An open run that continues with its own angle. -/
theorem endsRun_cons_self (a : ℚ) (rest : List ℚ) : endsRun a (a :: rest) = endsRun a rest := by
  simp [endsRun, List.dropWhile]

/-- An open run followed by another angle: the angle of the run does not occur any more. -/
theorem not_mem_of_endsRun_cons_ne (a b : ℚ) (rest : List ℚ) (hne : a ≠ b)
    (h : endsRun a (b :: rest) = true) : a ∉ rest := by
  have hba : (b == a) = false := by
    have : ¬ b = a := fun e => hne e.symm
    simp [this]
  simp only [endsRun, List.dropWhile, hba, List.all_cons, Bool.and_eq_true, List.all_eq_true,
    bne_iff_ne, ne_eq] at h
  intro hmem
  exact h.2 a hmem rfl

/-- With contiguous runs, after the loop and the final assignment: the open key holds the
projections collected so far followed by those of its primitives in the loop, every other start
angle of the loop holds exactly the projections of its primitives, and the remaining keys are
untouched. -/
theorem binResult_contiguous (L : List Primitive) :
    ∀ (prev : ℚ) (projections : MotionPoses) (m : ProjectionMap),
      contiguousRuns (L.map Primitive.startAngle) = true →
      endsRun prev (L.map Primitive.startAngle) = true →
      ∀ a, binResult L prev projections m a =
        if a = prev then some (projections ++ projectionsOf L a)
        else if a ∈ L.map Primitive.startAngle then some (projectionsOf L a)
        else m a := by
  induction L with
  | nil =>
    intro prev projections m _ _ a
    show m.assign prev projections a = _
    rw [assign_apply]
    simp [projectionsOf]
  | cons p rest ih =>
    intro prev projections m hruns hend a
    simp only [List.map_cons, contiguousRuns, Bool.and_eq_true] at hruns
    rw [binResult_cons]
    by_cases hprev : prev = p.startAngle
    · subst hprev
      rw [List.map_cons, endsRun_cons_self] at hend
      simp only [ne_eq, not_true_eq_false, if_false]
      rw [ih p.startAngle _ m hruns.2 hend a]
      by_cases ha : a = p.startAngle
      · subst ha
        simp [projectionsOf_cons_eq]
      · simp [ha, projectionsOf_cons_ne p rest a ha]
    · have hgone : prev ∉ rest.map Primitive.startAngle :=
        not_mem_of_endsRun_cons_ne prev p.startAngle _ hprev (by simpa using hend)
      simp only [ne_eq, hprev, not_false_eq_true, if_true, List.nil_append]
      rw [ih p.startAngle _ _ hruns.2 hruns.1 a, assign_apply]
      by_cases ha : a = p.startAngle
      · subst ha
        have hne : ¬ p.startAngle = prev := fun e => hprev e.symm
        simp [hne, projectionsOf_cons_eq]
      · by_cases hap : a = prev
        · subst hap
          have hnil : projectionsOf (p :: rest) a = [] := by
            rw [projectionsOf_cons_ne p rest a ha]
            exact projectionsOf_eq_nil rest a hgone
          simp only [ha, if_false, hgone, if_true, hnil, List.append_nil]
        · simp [ha, hap, projectionsOf_cons_ne p rest a ha]

/-- For a library with contiguous runs, the loop started as `initMotionModel` starts it leaves
under each start angle of the library exactly the projections of its primitives, whatever the
map held before. -/
theorem binResult_of_contiguous_library (L : List Primitive) (m : ProjectionMap) (a : ℚ)
    (hruns : contiguousRuns (L.map Primitive.startAngle) = true)
    (ha : a ∈ L.map Primitive.startAngle) :
    binResult L 0 [] m a = some (projectionsOf L a) := by
  cases L with
  | nil => simp at ha
  | cons p rest =>
    simp only [List.map_cons, contiguousRuns, Bool.and_eq_true] at hruns
    have hstep : binResult (p :: rest) 0 [] m =
        binResult rest p.startAngle [p.terminal]
          (if (0 : ℚ) ≠ p.startAngle then m.assign 0 [] else m) := by
      rw [binResult_cons]
      by_cases h0 : (0 : ℚ) = p.startAngle
      · simp [← h0]
      · simp [h0]
    rw [hstep, binResult_contiguous rest p.startAngle _ _ hruns.2 hruns.1 a]
    by_cases hap : a = p.startAngle
    · subst hap
      simp [projectionsOf_cons_eq]
    · have hmem : a ∈ rest.map Primitive.startAngle := by
        rcases List.mem_cons.mp ha with h | h
        · exact absurd h hap
        · exact h
      simp only [hap, if_false, hmem, if_true, projectionsOf_cons_ne p rest a hap]

/-- C2: for a library in which the primitives sharing a start angle form one contiguous run (each
primitive having a pose), loaded into a freshly constructed motion table, the bin stored under
each start angle `a` of the library is exactly the sequence of terminal projections
`(lastPose.x, lastPose.y, endAngle)` of the primitives whose start angle is `a`, one per primitive
and in source order. -/
theorem initMotionModel_stores_terminal_projections (fs : FileSystem) (t : LatticeMotionTable)
    (size_x_in : Nat) (search_info : SearchInfo) (j : Json) (L : List Primitive) (a : ℚ)
    (_hfresh : t.angleToProjections = fun _ => none)
    (hfile : fs search_info.lattice_filepath = .document j)
    (hlib : libraryPrimitives j = .ok L) (hposes : ∀ p ∈ L, p.poses ≠ [])
    (_hinit : (t.initMotionModel fs size_x_in search_info).1 = .ok ())
    (hruns : contiguousRuns (L.map Primitive.startAngle) = true)
    (ha : a ∈ L.map Primitive.startAngle) :
    (t.initMotionModel fs size_x_in search_info).2.angleToProjections a =
      some (projectionsOf L a) := by
  rw [initMotionModel_angleToProjections fs t size_x_in search_info j L hfile hlib hposes]
  exact binResult_of_contiguous_library L t.angleToProjections a hruns ha

/-- C2, at the test library: the table holds one bin, under start angle 0, with the one
projection `(0.06667, 0, 0)`. -/
theorem initMotionModel_stores_terminal_projections_witness :
    (freshTable.initMotionModel sampleFiles 100 sampleInfo).1 = .ok () ∧
    (freshTable.initMotionModel sampleFiles 100 sampleInfo).2.angleToProjections 0 =
      some [⟨0.06667, 0, 0⟩] ∧
    ∀ a : ℚ, a ≠ 0 →
      (freshTable.initMotionModel sampleFiles 100 sampleInfo).2.angleToProjections a = none :=
  ⟨rfl,
   (initMotionModel_stores_terminal_projections sampleFiles freshTable 100 sampleInfo
      sampleDocument [samplePrimitive] 0 rfl rfl rfl (by decide) rfl (by decide)
      (by decide)).trans (by with_unfolding_all rfl),
   fun a ha => by
    have h : (freshTable.initMotionModel sampleFiles 100 sampleInfo).2.angleToProjections =
        Function.update (fun _ => none : ProjectionMap) 0 (some [⟨0.06667, 0, 0⟩]) := by
      with_unfolding_all rfl
    rw [h]
    simp [Function.update, ha]⟩

/-! ### What contiguity of runs means -/

/-- The open run of `a` is the last one exactly when the occurrences of `a` form an initial
segment of the list. -/
theorem endsRun_iff (a : ℚ) (l : List ℚ) :
    endsRun a l = true ↔ ∀ j k, j < k → l.get? k = some a → l.get? j = some a := by
  induction l with
  | nil => simp [endsRun]
  | cons b rest ih =>
    by_cases hb : b = a
    · subst hb
      rw [endsRun_cons_self, ih]
      constructor
      · intro h j k hjk hk
        cases k with
        | zero => omega
        | succ k2 =>
          cases j with
          | zero => simp
          | succ j2 =>
            simp only [List.get?_cons_succ] at hk ⊢
            exact h j2 k2 (by omega) hk
      · intro h j k hjk hk
        have h2 := h (j + 1) (k + 1) (by omega) (by simpa using hk)
        simpa using h2
    · constructor
      · intro h j k hjk hk
        have hnot := not_mem_of_endsRun_cons_ne a b rest (fun e => hb e.symm) h
        cases k with
        | zero => omega
        | succ k2 =>
          simp only [List.get?_cons_succ] at hk
          exact absurd (List.get?_mem hk) hnot
      · intro h
        have hbeq : (b == a) = false := by simp [hb]
        simp only [endsRun, List.dropWhile, hbeq, List.all_cons, Bool.and_eq_true,
          List.all_eq_true, bne_iff_ne, ne_eq]
        refine ⟨hb, fun x hx hxa => ?_⟩
        subst hxa
        obtain ⟨k, hk⟩ := List.mem_iff_get?.mp hx
        have h0 := h 0 (k + 1) (by omega) (by simpa using hk)
        simp only [List.get?_cons_zero, Option.some.injEq] at h0
        exact hb h0

/-- The recursive test `contiguousRuns` says what it should: between two occurrences of an
angle, only that angle occurs. -/
theorem contiguousRuns_iff (l : List ℚ) :
    contiguousRuns l = true ↔
      ∀ i j k a, i < j → j < k → l.get? i = some a → l.get? k = some a → l.get? j = some a := by
  induction l with
  | nil => simp [contiguousRuns]
  | cons b rest ih =>
    simp only [contiguousRuns, Bool.and_eq_true, endsRun_iff, ih]
    constructor
    · rintro ⟨hrun, hrest⟩ i j k a hij hjk hi hk
      cases k with
      | zero => omega
      | succ k2 =>
        cases j with
        | zero => omega
        | succ j2 =>
          simp only [List.get?_cons_succ] at hk ⊢
          cases i with
          | zero =>
            simp only [List.get?_cons_zero, Option.some.injEq] at hi
            subst hi
            exact hrun j2 k2 (by omega) hk
          | succ i2 =>
            simp only [List.get?_cons_succ] at hi
            exact hrest i2 j2 k2 a (by omega) (by omega) hi hk
    · intro h
      refine ⟨fun j k hjk hk => ?_, fun i j k a hij hjk hi hk => ?_⟩
      · have h2 := h 0 (j + 1) (k + 1) b (by omega) (by omega) (by simp) (by simpa using hk)
        simpa using h2
      · have h2 := h (i + 1) (j + 1) (k + 1) a (by omega) (by omega) (by simpa using hi)
          (by simpa using hk)
        simpa using h2

/-! ### The three cases of the distance heuristic -/

/-- The three exclusive cases of `getDistanceHeuristic` for a query whose rounded relative
offset is `rel`.  Inside the square lookup window it returns the lookup-table entry at the index
computed from `rel` (no defined result if the table has no such entry), whatever the obstacle
heuristic is; outside the window with obstacle heuristic 0 it returns the distance of the curve
space between the states `(x, y, theta * num_angle_quantization)` made of the two poses (the
heading bin is multiplied by the number of bins, lines 334 and 337); outside the window with a
non-zero obstacle heuristic it returns 0. -/
theorem getDistanceHeuristic_three_cases (t : LatticeMotionTable) (hybrid : NodeHybrid)
    (node_coords goal_coords rel : Coordinates) (obstacle_heuristic : ℚ)
    (hrel : node_coords_relative t node_coords goal_coords = .ok rel) :
    ((|rel.x| < (Int.floor (hybrid.size_lookup / 2) : Int) ∧
        |rel.y| < (Int.floor (hybrid.size_lookup / 2) : Int)) →
      NodeLattice.getDistanceHeuristic t hybrid node_coords goal_coords obstacle_heuristic =
        (match vectorAt hybrid.dist_heuristic_lookup_table
            (toInt32
              (truncate (rel.x + (Int.floor (hybrid.size_lookup / 2) : Int)) *
                  Int.ceil (hybrid.size_lookup / 2) * t.num_angle_quantization +
                truncate |rel.y| * t.num_angle_quantization +
                (if rel.y < 0 then truncate (t.num_angle_quantization - rel.theta)
                  else truncate rel.theta))) with
          | some entry => .ok entry
          | none => .error .undefinedBehaviour) ∧
      ∀ other : ℚ,
        NodeLattice.getDistanceHeuristic t hybrid node_coords goal_coords other =
          NodeLattice.getDistanceHeuristic t hybrid node_coords goal_coords
            obstacle_heuristic) ∧
    (¬ (|rel.x| < (Int.floor (hybrid.size_lookup / 2) : Int) ∧
        |rel.y| < (Int.floor (hybrid.size_lookup / 2) : Int)) →
      obstacle_heuristic = 0 →
      NodeLattice.getDistanceHeuristic t hybrid node_coords goal_coords obstacle_heuristic =
        .ok (t.state_space
          (node_coords.x, node_coords.y, node_coords.theta * t.num_angle_quantization)
          (goal_coords.x, goal_coords.y, goal_coords.theta * t.num_angle_quantization))) ∧
    (¬ (|rel.x| < (Int.floor (hybrid.size_lookup / 2) : Int) ∧
        |rel.y| < (Int.floor (hybrid.size_lookup / 2) : Int)) →
      obstacle_heuristic ≠ 0 →
      NodeLattice.getDistanceHeuristic t hybrid node_coords goal_coords obstacle_heuristic =
        .ok 0) := by
  refine ⟨fun hwin => ⟨?_, fun other => ?_⟩, fun hout hzero => ?_, fun hout hnz => ?_⟩
  · simp only [NodeLattice.getDistanceHeuristic, hrel, hwin, and_self, if_true]
    split <;> simp_all
  · simp only [NodeLattice.getDistanceHeuristic, hrel, hwin, and_self, if_true]
  · simp only [NodeLattice.getDistanceHeuristic, hrel, hout, if_false, hzero, if_true]
  · simp only [NodeLattice.getDistanceHeuristic, hrel, hout, if_false, hnz]

/-- The three cases at three queries with 4 heading bins and a window of size 6 whose table
entry `i` holds `i - 36`: inside the window (offset `(0, 1, 1)`, index 41) the entry is returned although the
obstacle heuristic is 7; outside the window the curve distance (0 here) is returned for obstacle
heuristic 0, and 0 for obstacle heuristic 7. -/
theorem getDistanceHeuristic_three_cases_witness :
    NodeLattice.getDistanceHeuristic quadTable smallWindow ⟨0, 1, 1⟩ ⟨0, 0, 0⟩ 7 =
      .ok (41 - 36) ∧
    NodeLattice.getDistanceHeuristic quadTable smallWindow ⟨9, 1, 1⟩ ⟨0, 0, 0⟩ 0 = .ok 0 ∧
    NodeLattice.getDistanceHeuristic quadTable smallWindow ⟨9, 1, 1⟩ ⟨0, 0, 0⟩ 7 = .ok 0 :=
  ⟨((getDistanceHeuristic_three_cases quadTable smallWindow ⟨0, 1, 1⟩ ⟨0, 0, 0⟩ ⟨0, 1, 1⟩ 7
      (by with_unfolding_all rfl)).1 (by with_unfolding_all decide)).1.trans
      (by with_unfolding_all rfl),
   (getDistanceHeuristic_three_cases quadTable smallWindow ⟨9, 1, 1⟩ ⟨0, 0, 0⟩ ⟨9, 1, 1⟩ 0
      (by with_unfolding_all rfl)).2.1 (by with_unfolding_all decide) rfl,
   (getDistanceHeuristic_three_cases quadTable smallWindow ⟨9, 1, 1⟩ ⟨0, 0, 0⟩ ⟨9, 1, 1⟩ 7
      (by with_unfolding_all rfl)).2.2 (by with_unfolding_all decide) (by decide)⟩

/-! ### The entry point -/

/-- C12: `NodeLattice::initMotionModel` fails with the configuration error for every motion
model other than `STATE_LATTICE`, leaving the shared motion table as it was whatever the file
system holds (the loader is not run); for `STATE_LATTICE` its outcome and resulting table are
those of the motion table's own `initMotionModel` with the same grid width and search
configuration. -/
theorem initMotionModel_checks_motion_model (motion_model : MotionModel) (fs : FileSystem)
    (motion_table : LatticeMotionTable) (size_x : Nat) (search_info : SearchInfo) :
    (motion_model ≠ MotionModel.STATE_LATTICE →
      NodeLattice.initMotionModel motion_model fs motion_table size_x search_info =
        (.error .invalidMotionModel, motion_table)) ∧
    NodeLattice.initMotionModel MotionModel.STATE_LATTICE fs motion_table size_x search_info =
      motion_table.initMotionModel fs size_x search_info := by
  constructor
  · intro h
    simp [NodeLattice.initMotionModel, h]
  · simp [NodeLattice.initMotionModel]

/-- C12, at the motion model `DUBIN` and at the call of the test: the first fails and keeps the
table, the second loads the test library. -/
theorem initMotionModel_checks_motion_model_witness :
    NodeLattice.initMotionModel MotionModel.DUBIN sampleFiles freshTable 100 sampleInfo =
      (.error .invalidMotionModel, freshTable) ∧
    (NodeLattice.initMotionModel MotionModel.STATE_LATTICE sampleFiles freshTable 100
      sampleInfo).1 = .ok () :=
  ⟨(initMotionModel_checks_motion_model MotionModel.DUBIN sampleFiles freshTable 100
      sampleInfo).1 (by decide),
   by
    rw [(initMotionModel_checks_motion_model MotionModel.DUBIN sampleFiles freshTable 100
      sampleInfo).2]
    rfl⟩

/-! ### Failure of the load -/

/-- C13, as the claim states it, fails: loading a library whose third entry is malformed fails
with a type error, yet the table now has the new grid width 100 (it had 0) and a bin under
heading 0 (it had none). -/
theorem initMotionModel_failure_leaves_changes :
    (freshTable.initMotionModel brokenFiles 100 sampleInfo).1 = .error .typeError ∧
    (freshTable.initMotionModel brokenFiles 100 sampleInfo).2.size_x = 100 ∧
    freshTable.size_x = 0 ∧
    (freshTable.initMotionModel brokenFiles 100 sampleInfo).2.angleToProjections 0 =
      some [⟨0.06667, 0, 0⟩] ∧
    freshTable.angleToProjections 0 = none := by
  refine ⟨?_, ?_, ?_, ?_, ?_⟩ <;> with_unfolding_all rfl

/-- C13, amended: when `initMotionModel` fails, the grid width, the penalty weights and the
library path already hold the values of the new configuration; the minimum turning radius, the
heading-angle list and the members the function never writes are as before; and when the
failure is that the file cannot be opened or is not JSON, the heading-to-projection bins and the
metadata are as before too. -/
theorem initMotionModel_failure_frame (fs : FileSystem) (t : LatticeMotionTable)
    (size_x_in : Nat) (search_info : SearchInfo) (e : Err)
    (hfail : (t.initMotionModel fs size_x_in search_info).1 = .error e) :
    ((t.initMotionModel fs size_x_in search_info).2.size_x = size_x_in ∧
      (t.initMotionModel fs size_x_in search_info).2.change_penalty =
        search_info.change_penalty ∧
      (t.initMotionModel fs size_x_in search_info).2.non_straight_penalty =
        search_info.non_straight_penalty ∧
      (t.initMotionModel fs size_x_in search_info).2.cost_penalty = search_info.cost_penalty ∧
      (t.initMotionModel fs size_x_in search_info).2.reverse_penalty =
        search_info.reverse_penalty ∧
      (t.initMotionModel fs size_x_in search_info).2.obstacle_heuristic_cost_weight =
        search_info.obstacle_heuristic_cost_weight ∧
      (t.initMotionModel fs size_x_in search_info).2.current_lattice_filepath =
        search_info.lattice_filepath) ∧
    ((t.initMotionModel fs size_x_in search_info).2.min_turning_radius = t.min_turning_radius ∧
      (t.initMotionModel fs size_x_in search_info).2.headingAngles = t.headingAngles ∧
      (t.initMotionModel fs size_x_in search_info).2.num_angle_quantization =
        t.num_angle_quantization ∧
      (t.initMotionModel fs size_x_in search_info).2.bin_size = t.bin_size ∧
      (t.initMotionModel fs size_x_in search_info).2.trig_values = t.trig_values ∧
      (t.initMotionModel fs size_x_in search_info).2.state_space = t.state_space) ∧
    ((fs search_info.lattice_filepath = .unreadable ∨
        fs search_info.lattice_filepath = .malformed) →
      (t.initMotionModel fs size_x_in search_info).2.angleToProjections =
        t.angleToProjections ∧
      (t.initMotionModel fs size_x_in search_info).2.latticeMetadata = t.latticeMetadata) := by
  unfold LatticeMotionTable.initMotionModel at hfail ⊢
  cases hf : fs search_info.lattice_filepath with
  | unreadable => simp [hf]
  | malformed => simp [hf]
  | document j =>
    simp only [hf] at hfail ⊢
    cases hidx : j.index "primitives" with
    | error e1 => simp [hidx]
    | ok primitives =>
      simp only [hidx] at hfail ⊢
      rcases hloop : binLoop primitives.items 0 [] t.angleToProjections with ⟨r, m⟩
      cases r with
      | error e1 => simp [hloop]
      | ok pr =>
        obtain ⟨prev, projections⟩ := pr
        simp only [hloop] at hfail ⊢
        cases hmeta : j.index "latticeMetadata" with
        | error e1 => simp [hmeta]
        | ok jm =>
          simp only [hmeta] at hfail ⊢
          rcases hmd : from_json_to_metaData jm t.latticeMetadata with ⟨r2, md⟩
          cases r2 with
          | error e1 => simp [hmd]
          | ok u => simp [hmd] at hfail

/-- C13, amended, at the library whose third entry is malformed: the failed call leaves the new
grid width 100 and the old (empty) heading-angle list. -/
theorem initMotionModel_failure_frame_witness :
    (freshTable.initMotionModel brokenFiles 100 sampleInfo).1 = .error .typeError ∧
    (freshTable.initMotionModel brokenFiles 100 sampleInfo).2.size_x = 100 ∧
    (freshTable.initMotionModel brokenFiles 100 sampleInfo).2.headingAngles = [] :=
  ⟨by with_unfolding_all rfl,
   (initMotionModel_failure_frame brokenFiles freshTable 100 sampleInfo .typeError
      (by with_unfolding_all rfl)).1.1,
   (initMotionModel_failure_frame brokenFiles freshTable 100 sampleInfo .typeError
      (by with_unfolding_all rfl)).2.1.2.1⟩

/-! ### Number of projections per start angle -/

/-- C16, as the claim states it, fails: for the library with start angles 0, 90, 0 the load
succeeds and the bin of start angle 0 holds one projection (that of the last primitive), while
two primitives of the library have start angle 0. -/
theorem initMotionModel_keeps_last_run_only :
    libraryPrimitives interleavedDocument = .ok interleavedLibrary ∧
    (freshTable.initMotionModel interleavedFiles 100 sampleInfo).1 = .ok () ∧
    (freshTable.initMotionModel interleavedFiles 100 sampleInfo).2.angleToProjections 0 =
      some [⟨0.1, 0, 0⟩] ∧
    interleavedLibrary.countP (fun p => p.startAngle = 0) = 2 := by
  refine ⟨?_, ?_, ?_, ?_⟩ <;> with_unfolding_all rfl

/-- C16, amended: for a library in which the primitives sharing a start angle form one
contiguous run (the runs in any order of angle, each primitive having a pose), the load stores
under each start angle `a` one terminal projection per primitive of that start angle: the bin of
`a` has as many projections as the library has primitives whose start angle is `a`. -/
theorem initMotionModel_projection_count (fs : FileSystem) (t : LatticeMotionTable)
    (size_x_in : Nat) (search_info : SearchInfo) (j : Json) (L : List Primitive) (a : ℚ)
    (hfile : fs search_info.lattice_filepath = .document j)
    (hlib : libraryPrimitives j = .ok L) (hposes : ∀ p ∈ L, p.poses ≠ [])
    (hruns : contiguousRuns (L.map Primitive.startAngle) = true)
    (ha : a ∈ L.map Primitive.startAngle) :
    ∃ bin, (t.initMotionModel fs size_x_in search_info).2.angleToProjections a = some bin ∧
      bin.length = L.countP (fun p => p.startAngle = a) := by
  refine ⟨projectionsOf L a, ?_, ?_⟩
  · rw [initMotionModel_angleToProjections fs t size_x_in search_info j L hfile hlib hposes]
    exact binResult_of_contiguous_library L t.angleToProjections a hruns ha
  · simp [projectionsOf, List.countP_eq_length_filter]

/-- C16, amended, at the library with start angles 90, 0, 0 (runs not sorted by angle): the
bin of 0 holds as many projections as there are primitives of start angle 0. -/
theorem initMotionModel_projection_count_witness :
    ∃ bin, (freshTable.initMotionModel twoRunFiles 100 sampleInfo).2.angleToProjections 0 =
        some bin ∧
      bin.length = twoRunLibrary.countP (fun p => p.startAngle = 0) :=
  initMotionModel_projection_count twoRunFiles freshTable 100 sampleInfo twoRunDocument
    twoRunLibrary 0 rfl (by with_unfolding_all rfl) (by with_unfolding_all decide)
    (by with_unfolding_all decide) (by with_unfolding_all decide)

/-! ### Metadata -/

/-- When `from_json_to_metaData` succeeds, each member of the record it leaves is the converted
value of the document member of that name. -/
theorem from_json_to_metaData_ok (j : Json) (md0 md : LatticeMetadata) (u : Unit)
    (h : from_json_to_metaData j md0 = (.ok u, md)) :
    (j.atKey "turningRadius").bind Json.toFloat = .ok md.turningRadius ∧
    (j.atKey "stepDistance").bind Json.toFloat = .ok md.stepDistance ∧
    (j.atKey "gridSeparation").bind Json.toFloat = .ok md.gridSeparation ∧
    (j.atKey "maxLength").bind Json.toFloat = .ok md.maxLength ∧
    (j.atKey "numberOfHeadings").bind Json.toUnsigned = .ok md.numberOfHeadings ∧
    (j.atKey "outputFile").bind Json.toStr = .ok md.outputFile ∧
    (j.atKey "headingAngles").bind Json.toFloatVector = .ok md.headingAngles ∧
    (j.atKey "numberOfTrajectories").bind Json.toUnsigned = .ok md.numberOfTrajectories := by
  unfold from_json_to_metaData at h
  rcases h1 : (j.atKey "turningRadius").bind Json.toFloat with e | v1
  · simp [h1] at h
  rcases h2 : (j.atKey "stepDistance").bind Json.toFloat with e | v2
  · simp [h1, h2] at h
  rcases h3 : (j.atKey "gridSeparation").bind Json.toFloat with e | v3
  · simp [h1, h2, h3] at h
  rcases h4 : (j.atKey "maxLength").bind Json.toFloat with e | v4
  · simp [h1, h2, h3, h4] at h
  rcases h5 : (j.atKey "numberOfHeadings").bind Json.toUnsigned with e | v5
  · simp [h1, h2, h3, h4, h5] at h
  rcases h6 : (j.atKey "outputFile").bind Json.toStr with e | v6
  · simp [h1, h2, h3, h4, h5, h6] at h
  rcases h7 : (j.atKey "headingAngles").bind Json.toFloatVector with e | v7
  · simp [h1, h2, h3, h4, h5, h6, h7] at h
  rcases h8 : (j.atKey "numberOfTrajectories").bind Json.toUnsigned with e | v8
  · simp [h1, h2, h3, h4, h5, h6, h7, h8] at h
  simp only [h1, h2, h3, h4, h5, h6, h7, h8, Prod.mk.injEq] at h
  obtain ⟨_, rfl⟩ := h
  exact ⟨rfl, rfl, rfl, rfl, rfl, rfl, rfl, rfl⟩

/-- When the eight members of a document convert, `from_json_to_metaData` succeeds and leaves
exactly the converted values, whatever the record held before. -/
theorem from_json_to_metaData_of_values (j : Json) (md0 md : LatticeMetadata)
    (h1 : (j.atKey "turningRadius").bind Json.toFloat = .ok md.turningRadius)
    (h2 : (j.atKey "stepDistance").bind Json.toFloat = .ok md.stepDistance)
    (h3 : (j.atKey "gridSeparation").bind Json.toFloat = .ok md.gridSeparation)
    (h4 : (j.atKey "maxLength").bind Json.toFloat = .ok md.maxLength)
    (h5 : (j.atKey "numberOfHeadings").bind Json.toUnsigned = .ok md.numberOfHeadings)
    (h6 : (j.atKey "outputFile").bind Json.toStr = .ok md.outputFile)
    (h7 : (j.atKey "headingAngles").bind Json.toFloatVector = .ok md.headingAngles)
    (h8 : (j.atKey "numberOfTrajectories").bind Json.toUnsigned = .ok md.numberOfTrajectories) :
    from_json_to_metaData j md0 = (.ok (), md) := by
  simp only [from_json_to_metaData, h1, h2, h3, h4, h5, h6, h7, h8]

/-- A successful `from_json_to_metaData` does not depend on what the record held before. -/
theorem from_json_to_metaData_any_start (j : Json) (md0 md1 md : LatticeMetadata) (u : Unit)
    (h : from_json_to_metaData j md0 = (.ok u, md)) :
    from_json_to_metaData j md1 = (.ok (), md) := by
  obtain ⟨h1, h2, h3, h4, h5, h6, h7, h8⟩ := from_json_to_metaData_ok j md0 md u h
  exact from_json_to_metaData_of_values j md1 md h1 h2 h3 h4 h5 h6 h7 h8

/-- A successful `initMotionModel` read a document whose member `latticeMetadata` parsed into
the metadata the table now holds, and copied the turning radius and the heading angles from
it. -/
theorem initMotionModel_ok_metadata (fs : FileSystem) (t : LatticeMotionTable)
    (size_x_in : Nat) (search_info : SearchInfo)
    (hok : (t.initMotionModel fs size_x_in search_info).1 = .ok ()) :
    ∃ j jm, fs search_info.lattice_filepath = .document j ∧
      j.index "latticeMetadata" = .ok jm ∧
      from_json_to_metaData jm t.latticeMetadata =
        (.ok (), (t.initMotionModel fs size_x_in search_info).2.latticeMetadata) ∧
      (t.initMotionModel fs size_x_in search_info).2.min_turning_radius =
        (t.initMotionModel fs size_x_in search_info).2.latticeMetadata.turningRadius ∧
      (t.initMotionModel fs size_x_in search_info).2.headingAngles =
        (t.initMotionModel fs size_x_in search_info).2.latticeMetadata.headingAngles := by
  unfold LatticeMotionTable.initMotionModel at hok ⊢
  cases hf : fs search_info.lattice_filepath with
  | unreadable => simp [hf] at hok
  | malformed => simp [hf] at hok
  | document j =>
    simp only [hf] at hok ⊢
    cases hidx : j.index "primitives" with
    | error e1 => simp [hidx] at hok
    | ok primitives =>
      simp only [hidx] at hok ⊢
      rcases hloop : binLoop primitives.items 0 [] t.angleToProjections with ⟨r, m⟩
      cases r with
      | error e1 => simp [hloop] at hok
      | ok pr =>
        obtain ⟨prev, projections⟩ := pr
        simp only [hloop] at hok ⊢
        cases hmeta : j.index "latticeMetadata" with
        | error e1 => simp [hmeta] at hok
        | ok jm =>
          simp only [hmeta] at hok ⊢
          rcases hmd : from_json_to_metaData jm t.latticeMetadata with ⟨r2, md⟩
          cases r2 with
          | error e1 => simp [hmd] at hok
          | ok u => exact ⟨j, jm, rfl, hmeta, by simp [hmd], by simp [hmd], by simp [hmd]⟩

/-- A successful `getLatticeMetadata` read a document whose member `latticeMetadata` parsed into
the metadata it returns. -/
theorem getLatticeMetadata_ok (fs : FileSystem) (t : LatticeMotionTable) (path : String)
    (md0 md : LatticeMetadata) (hok : (t.getLatticeMetadata fs path md0).1 = .ok md) :
    ∃ j jm, fs path = .document j ∧ j.index "latticeMetadata" = .ok jm ∧
      from_json_to_metaData jm md0 = (.ok (), md) := by
  unfold LatticeMotionTable.getLatticeMetadata at hok
  cases hf : fs path with
  | unreadable => simp [hf] at hok
  | malformed => simp [hf] at hok
  | document j =>
    simp only [hf] at hok
    cases hmeta : j.index "latticeMetadata" with
    | error e1 => simp [hmeta] at hok
    | ok jm =>
      simp only [hmeta] at hok
      rcases hmd : from_json_to_metaData jm md0 with ⟨r2, md2⟩
      cases r2 with
      | error e1 => simp [hmd] at hok
      | ok u =>
        simp only [hmd, Except.ok.injEq] at hok
        subst hok
        exact ⟨j, jm, rfl, hmeta, hmd⟩

/-- C17, as the claim states it, fails: the test library with 16 as `numberOfHeadings` and two
heading angles loads, and the metadata in the table has `numberOfHeadings` 16 and a
heading-angle list of length 2. -/
theorem loaded_metadata_breaks_heading_invariant :
    (freshTable.initMotionModel sampleFiles 100 sampleInfo).1 = .ok () ∧
    (freshTable.initMotionModel sampleFiles 100 sampleInfo).2.latticeMetadata.numberOfHeadings =
      16 ∧
    (freshTable.initMotionModel sampleFiles 100
      sampleInfo).2.latticeMetadata.headingAngles.length = 2 := by
  refine ⟨?_, ?_, ?_⟩ <;> with_unfolding_all rfl

/-- C17, amended: the metadata `md` of a successful load (stored in the table by
`initMotionModel`, or returned by `getLatticeMetadata`) holds the converted members
`numberOfHeadings` and `headingAngles` of the document as they are; so
`len(headingAngles) == numberOfHeadings` holds for `md` exactly when it holds in the
document. -/
theorem loaded_metadata_headings_from_document (fs : FileSystem) (t : LatticeMotionTable)
    (size_x_in : Nat) (search_info : SearchInfo) (path : String) (md0 md : LatticeMetadata)
    (hload : ((t.initMotionModel fs size_x_in search_info).1 = .ok () ∧
        path = search_info.lattice_filepath ∧
        md = (t.initMotionModel fs size_x_in search_info).2.latticeMetadata) ∨
      (t.getLatticeMetadata fs path md0).1 = .ok md) :
    ∃ j jm n angles, fs path = .document j ∧ j.index "latticeMetadata" = .ok jm ∧
      (jm.atKey "numberOfHeadings").bind Json.toUnsigned = .ok n ∧
      (jm.atKey "headingAngles").bind Json.toFloatVector = .ok angles ∧
      md.numberOfHeadings = n ∧ md.headingAngles = angles ∧
      (md.headingAngles.length = md.numberOfHeadings ↔ angles.length = n) := by
  have key : ∃ j jm start, fs path = .document j ∧ j.index "latticeMetadata" = .ok jm ∧
      from_json_to_metaData jm start = (.ok (), md) := by
    rcases hload with ⟨hok, hpath, hmd⟩ | hget
    · obtain ⟨j, jm, hf, hidx, hparse, _, _⟩ :=
        initMotionModel_ok_metadata fs t size_x_in search_info hok
      exact ⟨j, jm, t.latticeMetadata, hpath ▸ hf, hidx, hmd ▸ hparse⟩
    · obtain ⟨j, jm, hf, hidx, hparse⟩ := getLatticeMetadata_ok fs t path md0 md hget
      exact ⟨j, jm, md0, hf, hidx, hparse⟩
  obtain ⟨j, jm, start, hf, hidx, hparse⟩ := key
  obtain ⟨_, _, _, _, h5, _, h7, _⟩ := from_json_to_metaData_ok jm start md () hparse
  exact ⟨j, jm, md.numberOfHeadings, md.headingAngles, hf, hidx, h5, h7, rfl, rfl, Iff.rfl⟩

/-- C17, amended, at the metadata that `getLatticeMetadata` returns for the test library: its
`numberOfHeadings` and `headingAngles` are those of the document. -/
theorem loaded_metadata_headings_from_document_witness :
    (freshTable.getLatticeMetadata sampleFiles "output.json" ⟨0, 0, 0, 0, 0, "", [], 0⟩).1 =
      .ok ⟨0.4, 0.005, 0.05, 1, 16, "output.json", [-180, 0], 1⟩ ∧
    ∃ j jm n angles, sampleFiles "output.json" = .document j ∧
      j.index "latticeMetadata" = .ok jm ∧
      (jm.atKey "numberOfHeadings").bind Json.toUnsigned = .ok n ∧
      (jm.atKey "headingAngles").bind Json.toFloatVector = .ok angles ∧
      (16 : Nat) = n ∧ ([-180, 0] : List ℚ) = angles ∧
      (([-180, 0] : List ℚ).length = 16 ↔ angles.length = n) :=
  ⟨by with_unfolding_all rfl,
   loaded_metadata_headings_from_document sampleFiles freshTable 100 sampleInfo "output.json"
    ⟨0, 0, 0, 0, 0, "", [], 0⟩ ⟨0.4, 0.005, 0.05, 1, 16, "output.json", [-180, 0], 1⟩
    (Or.inr (by with_unfolding_all rfl))⟩

/-- C18: when `initMotionModel` succeeds on a document, `getLatticeMetadata` on the same path
(called on any table, from any starting record) returns exactly the metadata that the load
stored in the motion table; the minimum turning radius and the heading-angle list of the table
are the `turningRadius` and `headingAngles` of that metadata; and `getLatticeMetadata` leaves
the table it is called on as it was. -/
theorem getLatticeMetadata_agrees_with_initMotionModel (fs : FileSystem)
    (t other : LatticeMotionTable) (size_x_in : Nat) (search_info : SearchInfo)
    (md0 : LatticeMetadata)
    (hok : (t.initMotionModel fs size_x_in search_info).1 = .ok ()) :
    (other.getLatticeMetadata fs search_info.lattice_filepath md0).1 =
      .ok (t.initMotionModel fs size_x_in search_info).2.latticeMetadata ∧
    (t.initMotionModel fs size_x_in search_info).2.min_turning_radius =
      (t.initMotionModel fs size_x_in search_info).2.latticeMetadata.turningRadius ∧
    (t.initMotionModel fs size_x_in search_info).2.headingAngles =
      (t.initMotionModel fs size_x_in search_info).2.latticeMetadata.headingAngles ∧
    (other.getLatticeMetadata fs search_info.lattice_filepath md0).2 = other := by
  obtain ⟨j, jm, hf, hidx, hparse, hrad, hang⟩ :=
    initMotionModel_ok_metadata fs t size_x_in search_info hok
  have hany := from_json_to_metaData_any_start jm t.latticeMetadata md0 _ () hparse
  refine ⟨?_, hrad, hang, ?_⟩
  · simp [LatticeMotionTable.getLatticeMetadata, hf, hidx, hany]
  · simp [LatticeMotionTable.getLatticeMetadata, hf, hidx, hany]

/-- C18, at the test library. -/
theorem getLatticeMetadata_agrees_with_initMotionModel_witness :
    (freshTable.initMotionModel sampleFiles 100 sampleInfo).1 = .ok () ∧
    (turnTable.getLatticeMetadata sampleFiles sampleInfo.lattice_filepath
        ⟨7, 7, 7, 7, 7, "x", [7], 7⟩).1 =
      .ok (freshTable.initMotionModel sampleFiles 100 sampleInfo).2.latticeMetadata ∧
    (freshTable.initMotionModel sampleFiles 100 sampleInfo).2.min_turning_radius = 0.4 :=
  ⟨rfl,
   (getLatticeMetadata_agrees_with_initMotionModel sampleFiles freshTable turnTable 100
      sampleInfo ⟨7, 7, 7, 7, 7, "x", [7], 7⟩ rfl).1,
   by with_unfolding_all rfl⟩

/-! ### Parsing a well-formed document -/

/-- An `unsigned int` value written as a number converts back to itself. -/
theorem toUnsigned_natCast (n : Nat) (h : n < 2 ^ 32) :
    Json.toUnsigned (.num (n : ℚ)) = .ok n := by
  have hcast : ((n : ℚ)) = (((n : Int)) : ℚ) := by push_cast; rfl
  have hmod : (n : Int) % 2 ^ 32 = n := Int.emod_eq_of_lt (by omega) (by exact_mod_cast h)
  simp only [Json.toUnsigned, hcast, truncate_intCast, hmod, Int.toNat_ofNat]

/-- A list of floats written as numbers converts back to itself. -/
theorem toFloatVector_map_num (xs : List ℚ) :
    Json.toFloatVector (.arr (xs.map Json.num)) = .ok xs := by
  simp only [Json.toFloatVector]
  induction xs with
  | nil => rfl
  | cons x rest ih =>
    simp only [List.map_cons, List.mapM_cons, Json.toFloat, ih]
    rfl

/-- A pose tuple parses to its pose. -/
theorem from_json_to_pose_toJson (p pose0 : MotionPose) :
    from_json_to_pose p.toJson pose0 = (.ok (), p) := rfl

/-- The pose loop over the tuples of a list of poses appends exactly these poses. -/
theorem posesLoop_map_toJson (ps : List MotionPose) :
    ∀ q : Primitive, posesLoop (ps.map MotionPose.toJson) q =
      (.ok (), { q with poses := q.poses ++ ps }) := by
  induction ps with
  | nil => intro q; simp [posesLoop]
  | cons p rest ih =>
    intro q
    simp only [List.map_cons, posesLoop, from_json_to_pose_toJson, ih, List.append_assoc,
      List.singleton_append]

/-- C19: for a well-formed document, parsing reproduces it.  `from_json_to_metaData` applied
to the metadata member written for `md` yields `md` (all eight members, whatever the record
held before), and `from_json_to_primitive` applied to the entry written for `p` and a fresh
primitive yields `p`: its seven scalars and one pose per pose tuple, in document order. -/
theorem parse_reproduces_document (md md0 : LatticeMetadata) (p : Primitive)
    (hheadings : md.numberOfHeadings < 2 ^ 32)
    (htrajectories : md.numberOfTrajectories < 2 ^ 32)
    (hid : p.trajectoryId < 2 ^ 32) :
    from_json_to_metaData md.toJson md0 = (.ok (), md) ∧
    from_json_to_primitive p.toJson Primitive.fresh = (.ok (), p) ∧
    (from_json_to_primitive p.toJson Primitive.fresh).2.poses.length = p.poses.length ∧
    ∀ i, ((from_json_to_primitive p.toJson Primitive.fresh).2.poses.get? i).map
        MotionPose.toJson = (p.poses.map MotionPose.toJson).get? i := by
  have hprim : from_json_to_primitive p.toJson Primitive.fresh = (.ok (), p) := by
    have hidv : (p.toJson.atKey "trajectoryId").bind Json.toUnsigned = .ok p.trajectoryId :=
      toUnsigned_natCast p.trajectoryId hid
    have h2 : (p.toJson.atKey "startAngle").bind Json.toFloat = .ok p.startAngle := rfl
    have h3 : (p.toJson.atKey "endAngle").bind Json.toFloat = .ok p.endAngle := rfl
    have h4 : (p.toJson.atKey "radius").bind Json.toFloat = .ok p.radius := rfl
    have h5 : (p.toJson.atKey "trajectoryLength").bind Json.toFloat = .ok p.trajectoryLength :=
      rfl
    have h6 : (p.toJson.atKey "arcLength").bind Json.toFloat = .ok p.arcLength := rfl
    have h7 : (p.toJson.atKey "straightLength").bind Json.toFloat = .ok p.straightLength := rfl
    have h8 : p.toJson.indexConst "poses" = .ok (.arr (p.poses.map MotionPose.toJson)) := rfl
    simp only [from_json_to_primitive, hidv, h2, h3, h4, h5, h6, h7, h8, Json.items,
      posesLoop_map_toJson, Primitive.fresh, List.nil_append]
  refine ⟨?_, hprim, ?_, ?_⟩
  · exact from_json_to_metaData_of_values md.toJson md0 md rfl rfl rfl rfl
      (toUnsigned_natCast md.numberOfHeadings hheadings) rfl
      (toFloatVector_map_num md.headingAngles)
      (toUnsigned_natCast md.numberOfTrajectories htrajectories)
  · rw [hprim]
  · intro i
    rw [hprim]
    simp [List.get?_eq_getElem?]

/-- C19, at the test library: its metadata and its first primitive, whose poses are `[0,0,0]`
and `[0.06667,0,0]`, parse to themselves. -/
theorem parse_reproduces_document_witness :
    from_json_to_metaData
        (LatticeMetadata.toJson ⟨0.4, 0.005, 0.05, 1, 16, "output.json", [-180, 0], 1⟩)
        ⟨0, 0, 0, 0, 0, "", [], 0⟩ =
      (.ok (), ⟨0.4, 0.005, 0.05, 1, 16, "output.json", [-180, 0], 1⟩) ∧
    from_json_to_primitive samplePrimitive.toJson Primitive.fresh = (.ok (), samplePrimitive) ∧
    samplePrimitive.poses = [⟨0, 0, 0⟩, ⟨0.06667, 0, 0⟩] :=
  ⟨(parse_reproduces_document ⟨0.4, 0.005, 0.05, 1, 16, "output.json", [-180, 0], 1⟩
      ⟨0, 0, 0, 0, 0, "", [], 0⟩ samplePrimitive (by decide) (by decide) (by decide)).1,
   (parse_reproduces_document ⟨0.4, 0.005, 0.05, 1, 16, "output.json", [-180, 0], 1⟩
      ⟨0, 0, 0, 0, 0, "", [], 0⟩ samplePrimitive (by decide) (by decide) (by decide)).2.1,
   rfl⟩

/-! ### Documents that lack a required member -/

/-- C20, at the failing input: a document with valid metadata and no member `primitives` loads
successfully, into a table whose only bin is an empty one under heading 0. -/
theorem initMotionModel_accepts_missing_primitives :
    (freshTable.initMotionModel (fun _ => .document noPrimitivesDocument) 100 sampleInfo).1 =
      .ok () ∧
    (freshTable.initMotionModel (fun _ => .document noPrimitivesDocument) 100
      sampleInfo).2.angleToProjections 0 = some [] := by
  constructor <;> with_unfolding_all rfl

/-- C20, the unchecked reads: an entry without the member `poses`, and a pose tuple with two
components, are read with unchecked accesses, so parsing them has no defined result instead
of throwing; a pose tuple whose third component is a string throws a type error. -/
theorem from_json_unchecked_reads :
    (from_json_to_primitive noPosesEntry Primitive.fresh).1 = .error .undefinedBehaviour ∧
    (from_json_to_pose (.arr [.num 0, .num 0]) MotionPose.fresh).1 =
      .error .undefinedBehaviour ∧
    (from_json_to_pose (.arr [.num 0, .num 0, .str "a"]) MotionPose.fresh).1 =
      .error .typeError := by
  refine ⟨?_, ?_, ?_⟩ <;> with_unfolding_all rfl

/-! ### Successors -/

/-- The validity check leaves the visited flag and the pose of the vertex as they are. -/
theorem isNodeValid_keeps_visited_pose (n : NodeLattice) (bin_size : ℚ)
    (traverse_unknown : Bool) (c : GridCollisionChecker) :
    (n.isNodeValid bin_size traverse_unknown c).2.1._was_visited = n._was_visited ∧
    (n.isNodeValid bin_size traverse_unknown c).2.1.pose = n.pose := by
  unfold NodeLattice.isNodeValid
  split
  · exact ⟨rfl, rfl⟩
  · split <;> exact ⟨rfl, rfl⟩

/-- The four outcomes of one pass through the loop body of `getNeighbors`: the index has no
defined value; the lookup finds nothing or a visited vertex, and nothing changes; the vertex
found passes the validity check, is given the position as motion-primitive index and is
appended; or it fails the check and is not appended. -/
theorem neighborStep_cases (getIndex : Nat → Nat → Nat → Nat)
    (NeighborGetter : Nat → Option Nat) (bin_size : ℚ) (traverse_unknown : Bool) (i : Nat)
    (projection : MotionPose) (s : NeighborsState) :
    neighborStep getIndex NeighborGetter bin_size traverse_unknown i projection s =
        (.error .undefinedBehaviour, s) ∨
    (neighborStep getIndex NeighborGetter bin_size traverse_unknown i projection s =
        (.ok (), s) ∧
      ∀ neighbor, lookupTarget getIndex NeighborGetter projection = some neighbor →
        (s.pool neighbor).wasVisited = true) ∨
    ∃ neighbor, lookupTarget getIndex NeighborGetter projection = some neighbor ∧
      (s.pool neighbor).wasVisited = false ∧
      ((((s.pool neighbor).setPose ⟨projection._x, projection._y,
            projection._theta⟩).isNodeValid bin_size traverse_unknown s.checker).1 = true ∧
        neighborStep getIndex NeighborGetter bin_size traverse_unknown i projection s =
          (.ok (),
            { neighbors := s.neighbors ++ [neighbor]
              pool := Function.update s.pool neighbor
                ((((s.pool neighbor).setPose ⟨projection._x, projection._y,
                  projection._theta⟩).isNodeValid bin_size traverse_unknown
                    s.checker).2.1.setMotionPrimitiveIndex i)
              checker := (((s.pool neighbor).setPose ⟨projection._x, projection._y,
                  projection._theta⟩).isNodeValid bin_size traverse_unknown s.checker).2.2 }) ∨
       (((s.pool neighbor).setPose ⟨projection._x, projection._y,
            projection._theta⟩).isNodeValid bin_size traverse_unknown s.checker).1 = false ∧
        neighborStep getIndex NeighborGetter bin_size traverse_unknown i projection s =
          (.ok (),
            { neighbors := s.neighbors
              pool := Function.update s.pool neighbor
                (((s.pool neighbor).setPose ⟨projection._x, projection._y,
                  projection._theta⟩).isNodeValid bin_size traverse_unknown s.checker).2.1
              checker := (((s.pool neighbor).setPose ⟨projection._x, projection._y,
                  projection._theta⟩).isNodeValid bin_size traverse_unknown
                    s.checker).2.2 })) := by
  unfold neighborStep lookupTarget
  cases hx : castUnsigned projection._x with
  | none => left; rfl
  | some x =>
    cases hy : castUnsigned projection._y with
    | none => left; rfl
    | some y =>
      cases hth : castUnsigned projection._theta with
      | none => left; rfl
      | some theta =>
        simp only []
        cases hg : NeighborGetter (getIndex x y theta) with
        | none => right; left; simp
        | some neighbor =>
          by_cases hv : (s.pool neighbor).wasVisited = true
          · right; left
            simp [hv]
          · have hv2 : (s.pool neighbor).wasVisited = false := by simpa using hv
            right; right
            refine ⟨neighbor, rfl, hv2, ?_⟩
            simp only [hv2, Bool.false_eq_true, if_false]
            rcases hval : ((s.pool neighbor).setPose ⟨projection._x, projection._y,
              projection._theta⟩).isNodeValid bin_size traverse_unknown s.checker
              with ⟨b, n2, c2⟩
            cases b with
            | true => left; simp
            | false => right; simp

/-- One pass through the loop body changes no visited flag. -/
theorem neighborStep_keeps_visited (getIndex : Nat → Nat → Nat → Nat)
    (NeighborGetter : Nat → Option Nat) (bin_size : ℚ) (traverse_unknown : Bool) (i : Nat)
    (projection : MotionPose) (s : NeighborsState) (q : Nat) :
    ((neighborStep getIndex NeighborGetter bin_size traverse_unknown i projection s).2.pool
      q).wasVisited = (s.pool q).wasVisited := by
  rcases neighborStep_cases getIndex NeighborGetter bin_size traverse_unknown i projection s
    with herr | ⟨hskip, _⟩ | ⟨nb, _, _, ⟨_, hstep⟩ | ⟨_, hstep⟩⟩
  · rw [herr]
  · rw [hskip]
  · rw [hstep]
    by_cases hq : q = nb
    · subst hq
      simp [NodeLattice.wasVisited, NodeLattice.setMotionPrimitiveIndex,
        (isNodeValid_keeps_visited_pose _ bin_size traverse_unknown s.checker).1,
        NodeLattice.setPose]
    · simp [Function.update, hq]
  · rw [hstep]
    by_cases hq : q = nb
    · subst hq
      simp [NodeLattice.wasVisited,
        (isNodeValid_keeps_visited_pose _ bin_size traverse_unknown s.checker).1,
        NodeLattice.setPose]
    · simp [Function.update, hq]

/-- One pass through the loop body changes no vertex other than the one looked up. -/
theorem neighborStep_keeps_others (getIndex : Nat → Nat → Nat → Nat)
    (NeighborGetter : Nat → Option Nat) (bin_size : ℚ) (traverse_unknown : Bool) (i : Nat)
    (projection : MotionPose) (s : NeighborsState) (q : Nat)
    (hq : lookupTarget getIndex NeighborGetter projection ≠ some q) :
    (neighborStep getIndex NeighborGetter bin_size traverse_unknown i projection s).2.pool q =
      s.pool q := by
  rcases neighborStep_cases getIndex NeighborGetter bin_size traverse_unknown i projection s
    with herr | ⟨hskip, _⟩ | ⟨nb, htgt, _, ⟨_, hstep⟩ | ⟨_, hstep⟩⟩
  · rw [herr]
  · rw [hskip]
  · have hne : q ≠ nb := fun e => hq (e ▸ htgt)
    rw [hstep]
    simp [Function.update, hne]
  · have hne : q ≠ nb := fun e => hq (e ▸ htgt)
    rw [hstep]
    simp [Function.update, hne]

/-- The loop changes no vertex to which none of its projections is looked up. -/
theorem neighborsLoop_keeps_others (getIndex : Nat → Nat → Nat → Nat)
    (NeighborGetter : Nat → Option Nat) (bin_size : ℚ) (traverse_unknown : Bool)
    (ps : List MotionPose) (q : Nat) :
    ∀ (i : Nat) (s : NeighborsState),
      (∀ p ∈ ps, lookupTarget getIndex NeighborGetter p ≠ some q) →
      (neighborsLoop getIndex NeighborGetter bin_size traverse_unknown ps i s).2.pool q =
        s.pool q := by
  induction ps with
  | nil => intro i s _; rfl
  | cons p rest ih =>
    intro i s h
    have hp := neighborStep_keeps_others getIndex NeighborGetter bin_size traverse_unknown i p
      s q (h p (List.mem_cons_self _ _))
    have hrest : ∀ p2 ∈ rest, lookupTarget getIndex NeighborGetter p2 ≠ some q :=
      fun p2 hp2 => h p2 (List.mem_cons_of_mem _ hp2)
    rcases hstep : neighborStep getIndex NeighborGetter bin_size traverse_unknown i p s
      with ⟨r, s1⟩
    rw [hstep] at hp
    cases r with
    | error e => simpa [neighborsLoop, hstep] using hp
    | ok u =>
      simp only [neighborsLoop, hstep]
      rw [ih (i + 1) s1 hrest]
      exact hp

/-- An entry appended by the loop over the remaining projections, after a pass that did not
fail, is an entry appended by the loop over all of them, one place further. -/
theorem AppendedBy_shift (getIndex : Nat → Nat → Nat → Nat)
    (NeighborGetter : Nat → Option Nat) (bin_size : ℚ) (traverse_unknown : Bool)
    (p : MotionPose) (rest : List MotionPose) (i : Nat) (s s1 : NeighborsState) (u : Unit)
    (hstep : neighborStep getIndex NeighborGetter bin_size traverse_unknown i p s = (.ok u, s1))
    (kp : Nat × Nat)
    (h : AppendedBy getIndex NeighborGetter bin_size traverse_unknown rest (i + 1) s1 kp) :
    AppendedBy getIndex NeighborGetter bin_size traverse_unknown (p :: rest) i s
      (kp.1 + 1, kp.2) := by
  obtain ⟨projection, hget, htgt, hvis, hval, hlast⟩ := h
  have hloop : ∀ qs, neighborsLoop getIndex NeighborGetter bin_size traverse_unknown (p :: qs) i
      s = neighborsLoop getIndex NeighborGetter bin_size traverse_unknown qs (i + 1) s1 := by
    intro qs
    simp only [neighborsLoop, hstep]
  have hvis0 := neighborStep_keeps_visited getIndex NeighborGetter bin_size traverse_unknown i p
    s kp.2
  rw [hstep] at hvis0
  refine ⟨projection, by simpa using hget, htgt, by rw [← hvis0]; exact hvis, ?_, ?_⟩
  · simp only [List.take_succ_cons, hloop]
    exact hval
  · intro hno
    have hno2 : ∀ k2 p2, kp.1 < k2 → rest.get? k2 = some p2 →
        lookupTarget getIndex NeighborGetter p2 ≠ some kp.2 :=
      fun k2 p2 hk hp2 => hno (k2 + 1) p2 (by simpa using hk) (by simpa using hp2)
    obtain ⟨hidx, hpose⟩ := hlast hno2
    rw [hloop]
    exact ⟨by simp only []; rw [hidx]; omega, hpose⟩

/-- The loop of `getNeighbors` keeps the entries of the output vector and appends entries, each
for a projection of its own, in the order of the projections; `AppendedBy` holds of each. -/
theorem neighborsLoop_appends (getIndex : Nat → Nat → Nat → Nat)
    (NeighborGetter : Nat → Option Nat) (bin_size : ℚ) (traverse_unknown : Bool)
    (ps : List MotionPose) :
    ∀ (i : Nat) (s : NeighborsState), ∃ picks : List (Nat × Nat),
      (neighborsLoop getIndex NeighborGetter bin_size traverse_unknown ps i s).2.neighbors =
        s.neighbors ++ picks.map Prod.snd ∧
      (picks.map Prod.fst).Pairwise (· < ·) ∧
      ∀ kp ∈ picks, AppendedBy getIndex NeighborGetter bin_size traverse_unknown ps i s kp := by
  induction ps with
  | nil =>
    intro i s
    exact ⟨[], by simp [neighborsLoop], by simp, by simp⟩
  | cons p rest ih =>
    intro i s
    have shifted : ∀ (s1 : NeighborsState) (u : Unit),
        neighborStep getIndex NeighborGetter bin_size traverse_unknown i p s = (.ok u, s1) →
        ∃ picks : List (Nat × Nat),
          (neighborsLoop getIndex NeighborGetter bin_size traverse_unknown (p :: rest) i
            s).2.neighbors = s1.neighbors ++ picks.map Prod.snd ∧
          (picks.map Prod.fst).Pairwise (· < ·) ∧
          (∀ k ∈ picks.map Prod.fst, 0 < k) ∧
          ∀ kp ∈ picks,
            AppendedBy getIndex NeighborGetter bin_size traverse_unknown (p :: rest) i s kp := by
      intro s1 u hstep
      obtain ⟨picks, hn, hpw, hall⟩ := ih (i + 1) s1
      refine ⟨picks.map fun kp => (kp.1 + 1, kp.2), ?_, ?_, ?_, ?_⟩
      · simp only [neighborsLoop, hstep, hn, List.map_map]
        rfl
      · rw [List.map_map]
        have : (Prod.fst ∘ fun kp : Nat × Nat => (kp.1 + 1, kp.2)) =
            (fun k => k + 1) ∘ Prod.fst := rfl
        rw [this, ← List.map_map]
        exact List.Pairwise.map _ (fun a b hab => Nat.succ_lt_succ hab) hpw
      · intro k hk
        simp only [List.map_map, List.mem_map, Function.comp] at hk
        obtain ⟨kp, _, rfl⟩ := hk
        exact Nat.succ_pos _
      · intro kp hkp
        obtain ⟨kp0, hkp0, rfl⟩ := List.mem_map.mp hkp
        exact AppendedBy_shift getIndex NeighborGetter bin_size traverse_unknown p rest i s s1 u
          hstep kp0 (hall kp0 hkp0)
    rcases neighborStep_cases getIndex NeighborGetter bin_size traverse_unknown i p s
      with herr | ⟨hskip, _⟩ | ⟨nb, htgt, hvis, ⟨hval, hstep⟩ | ⟨_, hstep⟩⟩
    · exact ⟨[], by simp [neighborsLoop, herr], by simp, by simp⟩
    · obtain ⟨picks, hn, hpw, _, hall⟩ := shifted s () hskip
      exact ⟨picks, hn, hpw, hall⟩
    · obtain ⟨picks, hn, hpw, hposn, hall⟩ := shifted _ () hstep
      refine ⟨(0, nb) :: picks, ?_, ?_, ?_⟩
      · rw [hn]
        simp
      · simp only [List.map_cons, List.pairwise_cons]
        exact ⟨hposn, hpw⟩
      · intro kp hkp
        rcases List.mem_cons.mp hkp with rfl | hmem
        · refine ⟨p, by simp, htgt, hvis, ?_, ?_⟩
          · simpa [neighborsLoop] using hval
          · intro hno
            have hrest : ∀ p2 ∈ rest, lookupTarget getIndex NeighborGetter p2 ≠ some nb := by
              intro p2 hp2
              obtain ⟨k, hk⟩ := List.mem_iff_get?.mp hp2
              exact hno (k + 1) p2 (Nat.succ_pos _) (by simpa using hk)
            simp only [neighborsLoop, hstep]
            rw [neighborsLoop_keeps_others getIndex NeighborGetter bin_size traverse_unknown
              rest nb (i + 1) _ hrest]
            simp [NodeLattice.setMotionPrimitiveIndex,
              (isNodeValid_keeps_visited_pose _ bin_size traverse_unknown s.checker).2,
              NodeLattice.setPose]
        · exact hall kp hmem
    · obtain ⟨picks, hn, hpw, _, hall⟩ := shifted _ () hstep
      exact ⟨picks, hn, hpw, hall⟩

/-- The projection query changes nothing of the table but its bins. -/
theorem getProjections_bin_size (t : LatticeMotionTable) (node : NodeLattice) :
    (t.getProjections node).2.bin_size = t.bin_size := by
  unfold LatticeMotionTable.getProjections
  simp only []
  split <;> rfl

/-- A vertex without a cached cost passes the validity check only if the checker reports no
collision at its pose. -/
theorem isNodeValid_true_of_nan (n : NodeLattice) (bin_size : ℚ) (traverse_unknown : Bool)
    (c : GridCollisionChecker) (hnan : n._cell_cost.isnan = true)
    (hvalid : (n.isNodeValid bin_size traverse_unknown c).1 = true) :
    (c.answer n.pose.x n.pose.y (n.pose.theta * bin_size) traverse_unknown).1 = false := by
  unfold NodeLattice.isNodeValid at hvalid
  simp only [hnan, Bool.not_true, Bool.false_eq_true, if_false,
    GridCollisionChecker.inCollision] at hvalid
  cases h : (c.answer n.pose.x n.pose.y (n.pose.theta * bin_size) traverse_unknown).1 with
  | false => rfl
  | true => simp [h] at hvalid

/-- C14: `getNeighbors` keeps the entries already in the output vector and appends entries,
at most one per projection and in projection order (the places `k` of the appended entries
increase).  Each appended pointer was yielded by the neighbor lookup for the projection at its
place, its vertex was not visited, and the validity check of the vertex, posed at that
projection and run in the state reached after the earlier projections, returned true; if the
vertex had no cached cost then, the checker reported no collision at the projected pose.  So a
vertex that is visited, not found or in collision is not appended. -/
theorem getNeighbors_appends_found_unvisited_valid (node : NodeLattice)
    (getIndex : Nat → Nat → Nat → Nat) (NeighborGetter : Nat → Option Nat)
    (traverse_unknown : Bool) (s : NeighborsState) (motion_table : LatticeMotionTable) :
    ∃ picks : List (Nat × Nat),
      (node.getNeighbors getIndex NeighborGetter traverse_unknown s
        motion_table).2.1.neighbors = s.neighbors ++ picks.map Prod.snd ∧
      (picks.map Prod.fst).Pairwise (· < ·) ∧
      ∀ kp ∈ picks, ∃ ps projection,
        (motion_table.getProjections node).1 = .ok ps ∧
        ps.get? kp.1 = some projection ∧
        lookupTarget getIndex NeighborGetter projection = some kp.2 ∧
        (s.pool kp.2).wasVisited = false ∧
        ((((neighborsLoop getIndex NeighborGetter motion_table.bin_size traverse_unknown
              (ps.take kp.1) 0 s).2.pool kp.2).setPose ⟨projection._x, projection._y,
            projection._theta⟩).isNodeValid motion_table.bin_size traverse_unknown
          (neighborsLoop getIndex NeighborGetter motion_table.bin_size traverse_unknown
            (ps.take kp.1) 0 s).2.checker).1 = true ∧
        (((neighborsLoop getIndex NeighborGetter motion_table.bin_size traverse_unknown
            (ps.take kp.1) 0 s).2.pool kp.2)._cell_cost.isnan = true →
          ((neighborsLoop getIndex NeighborGetter motion_table.bin_size traverse_unknown
            (ps.take kp.1) 0 s).2.checker.answer projection._x projection._y
              (projection._theta * motion_table.bin_size) traverse_unknown).1 = false) := by
  unfold NodeLattice.getNeighbors
  rcases hproj : motion_table.getProjections node with ⟨r, table1⟩
  have hbin : table1.bin_size = motion_table.bin_size := by
    have h := getProjections_bin_size motion_table node
    rw [hproj] at h
    exact h
  cases r with
  | error e => exact ⟨[], by simp, by simp, by simp⟩
  | ok ps =>
    simp only [hbin]
    obtain ⟨picks, hn, hpw, hall⟩ := neighborsLoop_appends getIndex NeighborGetter
      motion_table.bin_size traverse_unknown ps 0 s
    refine ⟨picks, hn, hpw, fun kp hkp => ?_⟩
    obtain ⟨projection, hget, htgt, hvis, hval, _⟩ := hall kp hkp
    refine ⟨ps, projection, rfl, hget, htgt, hvis, hval, fun hnan => ?_⟩
    refine isNodeValid_true_of_nan _ motion_table.bin_size traverse_unknown _ ?_ hval
    exact hnan

/-- C15, as the claim states it, fails: with two projections `(0.2, 0, 0)` and `(0.4, 0, 0)`
that flatten to the same grid index, the same vertex is appended twice, and after the call it
has motion-primitive index 1 and pose `(0.4, 0, 0)`; the entry appended for the projection at
position 0 does not have index 0 and pose `(0.2, 0, 0)`. -/
theorem getNeighbors_same_cell_overwrites :
    (doubleTable.getProjections (NodeLattice.construct 0 0)).1 =
      .ok [⟨0.2, 0, 0⟩, ⟨0.4, 0, 0⟩] ∧
    ((NodeLattice.construct 0 0).getNeighbors gridIndex some false emptySearch
      doubleTable).2.1.neighbors = [0, 0] ∧
    (((NodeLattice.construct 0 0).getNeighbors gridIndex some false emptySearch
      doubleTable).2.1.pool 0)._motion_primitive_index = 1 ∧
    (((NodeLattice.construct 0 0).getNeighbors gridIndex some false emptySearch
      doubleTable).2.1.pool 0).pose = ⟨0.4, 0, 0⟩ := by
  refine ⟨?_, ?_, ?_, ?_⟩ <;> with_unfolding_all rfl

/-- C15, amended: each entry that `getNeighbors` appends, for the projection at position `k`,
and whose vertex no later projection of the call is looked up to, records which primitive
produced it: after the call the vertex has motion-primitive index `k` and the pose of that
projection. -/
theorem getNeighbors_records_primitive (node : NodeLattice)
    (getIndex : Nat → Nat → Nat → Nat) (NeighborGetter : Nat → Option Nat)
    (traverse_unknown : Bool) (s : NeighborsState) (motion_table : LatticeMotionTable) :
    ∃ picks : List (Nat × Nat),
      (node.getNeighbors getIndex NeighborGetter traverse_unknown s
        motion_table).2.1.neighbors = s.neighbors ++ picks.map Prod.snd ∧
      (picks.map Prod.fst).Pairwise (· < ·) ∧
      ∀ kp ∈ picks, ∃ ps projection,
        (motion_table.getProjections node).1 = .ok ps ∧
        ps.get? kp.1 = some projection ∧
        lookupTarget getIndex NeighborGetter projection = some kp.2 ∧
        ((∀ k2 p2, kp.1 < k2 → ps.get? k2 = some p2 →
            lookupTarget getIndex NeighborGetter p2 ≠ some kp.2) →
          ((node.getNeighbors getIndex NeighborGetter traverse_unknown s
            motion_table).2.1.pool kp.2)._motion_primitive_index = kp.1 ∧
          ((node.getNeighbors getIndex NeighborGetter traverse_unknown s
            motion_table).2.1.pool kp.2).pose =
              ⟨projection._x, projection._y, projection._theta⟩) := by
  unfold NodeLattice.getNeighbors
  rcases hproj : motion_table.getProjections node with ⟨r, table1⟩
  cases r with
  | error e => exact ⟨[], by simp, by simp, by simp⟩
  | ok ps =>
    obtain ⟨picks, hn, hpw, hall⟩ := neighborsLoop_appends getIndex NeighborGetter
      table1.bin_size traverse_unknown ps 0 s
    refine ⟨picks, hn, hpw, fun kp hkp => ?_⟩
    obtain ⟨projection, hget, htgt, _, _, hlast⟩ := hall kp hkp
    refine ⟨ps, projection, rfl, hget, htgt, fun hno => ?_⟩
    have h := hlast hno
    simp only [Nat.zero_add] at h
    exact h

/-- The successors of the vertex `(0, 0, 0)` for two projections that fall into different grid
cells: the vertices of flattened index 16 and 32 are appended in this order, and they end with
motion-primitive index 0 and 1 and the pose of their projection. -/
theorem getNeighbors_distinct_cells :
    ((NodeLattice.construct 0 0).getNeighbors gridIndex some false emptySearch
      spreadTable).2.1.neighbors = [16, 32] ∧
    (((NodeLattice.construct 0 0).getNeighbors gridIndex some false emptySearch
      spreadTable).2.1.pool 16)._motion_primitive_index = 0 ∧
    (((NodeLattice.construct 0 0).getNeighbors gridIndex some false emptySearch
      spreadTable).2.1.pool 16).pose = ⟨1.2, 0, 0⟩ ∧
    (((NodeLattice.construct 0 0).getNeighbors gridIndex some false emptySearch
      spreadTable).2.1.pool 32)._motion_primitive_index = 1 ∧
    (((NodeLattice.construct 0 0).getNeighbors gridIndex some false emptySearch
      spreadTable).2.1.pool 32).pose = ⟨2.4, 0, 0⟩ := by
  refine ⟨?_, ?_, ?_, ?_, ?_⟩ <;> with_unfolding_all rfl

/-! ### Effect of the projection query on the table -/

/-- C21, at the failing input: on a table without bins, `getProjections` for a vertex of heading
350 fails, and the table, which had no bin under 350, has an empty bin under 350 afterwards. -/
theorem getProjections_inserts_empty_bin :
    freshTable.angleToProjections turnNode.pose.theta = none ∧
    (freshTable.getProjections turnNode).1 = .error .zeroSizeProjections ∧
    (freshTable.getProjections turnNode).2.angleToProjections turnNode.pose.theta =
      some [] := by
  refine ⟨rfl, rfl, ?_⟩
  simp [LatticeMotionTable.getProjections, ProjectionMap.index, freshTable]

/-- What `getProjections` does to the table: nothing when the heading of the vertex has a
recorded bin (empty or not); when it has none, the call fails and the only change is an empty
bin recorded under that heading. -/
theorem getProjections_table_after (t : LatticeMotionTable) (node : NodeLattice) :
    (∀ bin, t.angleToProjections node.pose.theta = some bin →
      (t.getProjections node).2 = t) ∧
    (t.angleToProjections node.pose.theta = none →
      (t.getProjections node).1 = .error .zeroSizeProjections ∧
      (t.getProjections node).2 =
        { t with angleToProjections :=
            Function.update t.angleToProjections node.pose.theta (some []) }) := by
  constructor
  · intro bin hbin
    unfold LatticeMotionTable.getProjections
    simp only [ProjectionMap.index, hbin]
    split <;> rfl
  · intro hnone
    simp [LatticeMotionTable.getProjections, ProjectionMap.index, hnone]

/-! ### Range of the relative heading -/

/-- C22, at the failing input: with 4 heading bins, node heading 3.6 and goal heading 0 (both in
`[0, 4)`), the relative heading that `getDistanceHeuristic` derives is 4. -/
theorem node_coords_relative_heading_reaches_bound :
    quadTable.num_angle_quantization = 4 ∧
    node_coords_relative quadTable ⟨0, 0, 3.6⟩ ⟨0, 0, 0⟩ = .ok ⟨0, 0, 4⟩ := by
  constructor <;> with_unfolding_all rfl

/-- Rounding an integer value leaves it unchanged. -/
theorem cround_intCast (z : Int) : cround (z : ℚ) = z := by
  unfold cround
  split
  · rw [Int.floor_eq_iff]
    constructor <;> linarith
  · rw [Int.ceil_eq_iff]
    constructor <;> linarith

/-- Rounding a value of `[0, n)` gives an integer of `[0, n]`. -/
theorem cround_bounds (q : ℚ) (n : Nat) (h0 : 0 ≤ q) (hn : q < n) :
    0 ≤ cround q ∧ cround q ≤ n := by
  unfold cround
  rw [if_pos h0]
  constructor
  · rw [Int.floor_nonneg]
    linarith
  · have h : Int.floor (q + 1 / 2) < (n : Int) + 1 := by
      rw [Int.floor_lt]
      push_cast
      linarith
    omega

/-- C22, amended: for node and goal headings in `[0, numberOfHeadings)` that are integers
(heading bins), the relative heading that `getDistanceHeuristic` derives, after wrapping and
rounding, lies in `[0, numberOfHeadings)`.  For arbitrary headings of that range it lies in
`[0, numberOfHeadings]`, the upper bound included (it is reached when the wrapped difference
rounds up). -/
theorem node_coords_relative_heading_range (t : LatticeMotionTable)
    (node_coords goal_coords rel : Coordinates)
    (hrel : node_coords_relative t node_coords goal_coords = .ok rel)
    (hnode0 : 0 ≤ node_coords.theta) (hnode : node_coords.theta < t.num_angle_quantization)
    (hgoal0 : 0 ≤ goal_coords.theta) (hgoal : goal_coords.theta < t.num_angle_quantization) :
    (0 ≤ rel.theta ∧ rel.theta ≤ t.num_angle_quantization) ∧
    ((∃ a b : Int, node_coords.theta = a ∧ goal_coords.theta = b) →
      rel.theta < t.num_angle_quantization) := by
  unfold node_coords_relative at hrel
  cases htrig : vectorAt t.trig_values (truncate goal_coords.theta) with
  | none => simp [htrig] at hrel
  | some tv =>
    simp only [htrig, Except.ok.injEq] at hrel
    have hnot : ¬ (node_coords.theta - goal_coords.theta > t.num_angle_quantization) := by
      intro h
      linarith
    rw [if_neg hnot] at hrel
    subst hrel
    simp only []
    by_cases hneg : node_coords.theta - goal_coords.theta < 0
    · rw [if_pos hneg]
      have hb := cround_bounds (node_coords.theta - goal_coords.theta + t.num_angle_quantization)
        t.num_angle_quantization (by linarith) (by linarith)
      refine ⟨⟨by exact_mod_cast hb.1, by exact_mod_cast hb.2⟩, ?_⟩
      rintro ⟨a, b, ha, hb2⟩
      have hcast : node_coords.theta - goal_coords.theta + (t.num_angle_quantization : ℚ) =
          ((a - b + (t.num_angle_quantization : Int) : Int) : ℚ) := by
        rw [ha, hb2]; push_cast; ring
      rw [hcast, cround_intCast]
      have hlt : (a : ℚ) - b < 0 := by rw [← ha, ← hb2]; exact hneg
      have hlt2 : a - b < 0 := by exact_mod_cast hlt
      have : a - b + (t.num_angle_quantization : Int) < (t.num_angle_quantization : Int) := by
        omega
      exact_mod_cast this
    · rw [if_neg hneg]
      have hb := cround_bounds (node_coords.theta - goal_coords.theta)
        t.num_angle_quantization (by linarith) (by linarith)
      refine ⟨⟨by exact_mod_cast hb.1, by exact_mod_cast hb.2⟩, ?_⟩
      rintro ⟨a, b, ha, hb2⟩
      have hcast : node_coords.theta - goal_coords.theta = ((a - b : Int) : ℚ) := by
        rw [ha, hb2]; push_cast; ring
      rw [hcast, cround_intCast]
      have hlt : (a : ℚ) - b < t.num_angle_quantization := by
        rw [← ha, ← hb2]; linarith
      have hlt2 : a - b < (t.num_angle_quantization : Int) := by exact_mod_cast hlt
      exact_mod_cast hlt2

/-- C22, amended, at node heading 1 and goal heading 3 with 4 heading bins: the relative heading
is 2. -/
theorem node_coords_relative_heading_range_witness :
    node_coords_relative fullQuadTable ⟨0, 0, 1⟩ ⟨0, 0, 3⟩ = .ok ⟨0, 0, 2⟩ ∧
    ((0 : ℚ) ≤ 2 ∧ (2 : ℚ) ≤ fullQuadTable.num_angle_quantization) ∧
    ((∃ a b : Int, (1 : ℚ) = a ∧ (3 : ℚ) = b) →
      (2 : ℚ) < fullQuadTable.num_angle_quantization) :=
  ⟨by with_unfolding_all rfl,
   node_coords_relative_heading_range fullQuadTable ⟨0, 0, 1⟩ ⟨0, 0, 3⟩ ⟨0, 0, 2⟩
    (by with_unfolding_all rfl) (by with_unfolding_all decide)
    (by with_unfolding_all decide) (by with_unfolding_all decide)
    (by with_unfolding_all decide)⟩

/-! ### Loading a second library -/

/-- C23, at the failing input: a table that loaded the library with start angle 90 and then the
test library (start angle 0) still holds the bin of heading 90, and `getProjections` succeeds
for a vertex of heading 90; a freshly constructed table that loads the test library has no bin
under 90, and `getProjections` fails there. -/
theorem initMotionModel_keeps_earlier_bins :
    ((freshTable.initMotionModel twoFiles 100 firstInfo).2.initMotionModel twoFiles 100
      sampleInfo).1 = .ok () ∧
    ((freshTable.initMotionModel twoFiles 100 firstInfo).2.initMotionModel twoFiles 100
      sampleInfo).2.angleToProjections 90 = some [⟨0, 0.05, 90⟩] ∧
    (freshTable.initMotionModel twoFiles 100 sampleInfo).2.angleToProjections 90 = none ∧
    ((((freshTable.initMotionModel twoFiles 100 firstInfo).2.initMotionModel twoFiles 100
      sampleInfo).2).getProjections quarterNode).1 = .ok [⟨0, 0.05, 180⟩] ∧
    ((freshTable.initMotionModel twoFiles 100 sampleInfo).2.getProjections quarterNode).1 =
      .error .zeroSizeProjections := by
  refine ⟨?_, ?_, ?_, ?_, ?_⟩ <;> with_unfolding_all rfl

/-- Under the start angles of the library being loaded (with contiguous runs), the bins after
the load do not depend on what the table held before. -/
theorem initMotionModel_library_bins_independent (fs : FileSystem)
    (t1 t2 : LatticeMotionTable) (size_x_in : Nat) (search_info : SearchInfo) (j : Json)
    (L : List Primitive) (a : ℚ)
    (hfile : fs search_info.lattice_filepath = .document j)
    (hlib : libraryPrimitives j = .ok L) (hposes : ∀ p ∈ L, p.poses ≠ [])
    (hruns : contiguousRuns (L.map Primitive.startAngle) = true)
    (ha : a ∈ L.map Primitive.startAngle) :
    (t1.initMotionModel fs size_x_in search_info).2.angleToProjections a =
      (t2.initMotionModel fs size_x_in search_info).2.angleToProjections a := by
  rw [initMotionModel_angleToProjections fs t1 size_x_in search_info j L hfile hlib hposes,
    initMotionModel_angleToProjections fs t2 size_x_in search_info j L hfile hlib hposes,
    binResult_of_contiguous_library L t1.angleToProjections a hruns ha,
    binResult_of_contiguous_library L t2.angleToProjections a hruns ha]

/-! ### Bounds of the lookup indices -/

/-- Inside the window, `getDistanceHeuristic` reads the table at the flattened index made of
`lookupXPos`, `lookupYPos` and `lookupThetaPos`. -/
theorem getDistanceHeuristic_reads_flat_index (t : LatticeMotionTable) (hybrid : NodeHybrid)
    (node_coords goal_coords rel : Coordinates) (obstacle_heuristic : ℚ)
    (hrel : node_coords_relative t node_coords goal_coords = .ok rel)
    (hwin : |rel.x| < (Int.floor (hybrid.size_lookup / 2) : Int) ∧
      |rel.y| < (Int.floor (hybrid.size_lookup / 2) : Int)) :
    NodeLattice.getDistanceHeuristic t hybrid node_coords goal_coords obstacle_heuristic =
      (match vectorAt hybrid.dist_heuristic_lookup_table
          (toInt32 (lookupFlatIndex hybrid.size_lookup t.num_angle_quantization rel)) with
        | some entry => .ok entry
        | none => .error .undefinedBehaviour) := by
  simp only [NodeLattice.getDistanceHeuristic, hrel, hwin, and_self, if_true, lookupFlatIndex,
    lookupXPos, lookupYPos, lookupThetaPos]
  split <;> simp_all

/-- C24, at the failing input: with 4 heading bins, a window of size 4 and a table of exactly
`4 * 2 * 4 = 32` entries, the offset `(1, -1, 0)` (inside the window, heading 0) gets the
heading index 4, which is not below 4, and the flattened index 32, which is not below 32; the
read is past the end of the table. -/
theorem getDistanceHeuristic_index_past_end :
    node_coords_relative quadTable ⟨1, -1, 0⟩ ⟨0, 0, 0⟩ = .ok ⟨1, -1, 0⟩ ∧
    lookupThetaPos quadTable.num_angle_quantization ⟨1, -1, 0⟩ = 4 ∧
    lookupXPos evenWindow.size_lookup ⟨1, -1, 0⟩ = 3 ∧
    lookupYPos ⟨1, -1, 0⟩ = 1 ∧
    lookupFlatIndex evenWindow.size_lookup quadTable.num_angle_quantization ⟨1, -1, 0⟩ = 32 ∧
    evenWindow.dist_heuristic_lookup_table.length = 32 ∧
    NodeLattice.getDistanceHeuristic quadTable evenWindow ⟨1, -1, 0⟩ ⟨0, 0, 0⟩ 0 =
      .error .undefinedBehaviour := by
  refine ⟨?_, ?_, ?_, ?_, ?_, ?_, ?_⟩ <;> with_unfolding_all rfl

/-- The lookup indices of an integer offset `(x, y, theta)` inside the window, with `theta` in
`[0, numberOfHeadings)`: `x_pos`, `y_pos` and the flattened index are in bounds, and so is the
heading index, unless `y` is negative and `theta` is 0; in that case the heading index is
`numberOfHeadings`. -/
theorem lookup_indices_bounds (size_lookup : ℚ) (N : Nat) (x y theta : Int)
    (hx : |(x : ℚ)| < (Int.floor (size_lookup / 2) : Int))
    (hy : |(y : ℚ)| < (Int.floor (size_lookup / 2) : Int))
    (h0 : 0 ≤ theta) (hN : theta < N) :
    (0 ≤ lookupXPos size_lookup ⟨x, y, theta⟩ ∧
      (lookupXPos size_lookup ⟨x, y, theta⟩ : ℚ) < size_lookup) ∧
    (0 ≤ lookupYPos ⟨x, y, theta⟩ ∧
      lookupYPos ⟨x, y, theta⟩ < Int.ceil (size_lookup / 2)) ∧
    (¬ (y < 0 ∧ theta = 0) →
      (0 ≤ lookupThetaPos N ⟨x, y, theta⟩ ∧ lookupThetaPos N ⟨x, y, theta⟩ < N) ∧
      0 ≤ lookupFlatIndex size_lookup N ⟨x, y, theta⟩ ∧
      (lookupFlatIndex size_lookup N ⟨x, y, theta⟩ : ℚ) <
        size_lookup * Int.ceil (size_lookup / 2) * N) ∧
    (y < 0 ∧ theta = 0 → lookupThetaPos N ⟨x, y, theta⟩ = N) := by
  have hfc : Int.floor (size_lookup / 2) ≤ Int.ceil (size_lookup / 2) := Int.floor_le_ceil _
  have hfl : ((Int.floor (size_lookup / 2) : Int) : ℚ) ≤ size_lookup / 2 := Int.floor_le _
  have hxi : |x| < Int.floor (size_lookup / 2) := by
    have h : ((|x| : Int) : ℚ) < (Int.floor (size_lookup / 2) : Int) := by
      rw [Int.cast_abs]; exact hx
    exact_mod_cast h
  have hyi : |y| < Int.floor (size_lookup / 2) := by
    have h : ((|y| : Int) : ℚ) < (Int.floor (size_lookup / 2) : Int) := by
      rw [Int.cast_abs]; exact hy
    exact_mod_cast h
  obtain ⟨hx1, hx2⟩ := abs_lt.mp hxi
  have hypos : 0 ≤ |y| := abs_nonneg y
  have hxpos : lookupXPos size_lookup ⟨x, y, theta⟩ = x + Int.floor (size_lookup / 2) := by
    simp only [lookupXPos]
    rw [← Int.cast_add, truncate_intCast]
  have hypos2 : lookupYPos ⟨x, y, theta⟩ = |y| := by
    simp only [lookupYPos]
    rw [← Int.cast_abs, truncate_intCast]
  have hxq : ((x + Int.floor (size_lookup / 2) : Int) : ℚ) < size_lookup := by
    have h1 : ((x : Int) : ℚ) < (Int.floor (size_lookup / 2) : Int) := by exact_mod_cast hx2
    push_cast
    linarith
  refine ⟨⟨by rw [hxpos]; omega, by rw [hxpos]; exact hxq⟩,
    ⟨by rw [hypos2]; exact hypos, by rw [hypos2]; omega⟩, ?_, ?_⟩
  · intro hmirror
    have htheta : 0 ≤ lookupThetaPos N ⟨x, y, theta⟩ ∧ lookupThetaPos N ⟨x, y, theta⟩ < N := by
      simp only [lookupThetaPos]
      by_cases hneg : ((y : Int) : ℚ) < 0
      · have hyneg : y < 0 := by exact_mod_cast hneg
        have hth : theta ≠ 0 := fun e => hmirror ⟨hyneg, e⟩
        rw [if_pos hneg]
        have hcast : ((N : ℚ)) - ((theta : Int) : ℚ) = (((N : Int) - theta : Int) : ℚ) := by
          push_cast; ring
        rw [hcast, truncate_intCast]
        omega
      · rw [if_neg hneg, truncate_intCast]
        exact ⟨h0, hN⟩
    refine ⟨htheta, ?_, ?_⟩
    · simp only [lookupFlatIndex]
      rw [hxpos, hypos2]
      have hc : 0 ≤ Int.ceil (size_lookup / 2) := by omega
      have : 0 ≤ (x + Int.floor (size_lookup / 2)) * Int.ceil (size_lookup / 2) * (N : Int) :=
        mul_nonneg (mul_nonneg (by omega) hc) (by omega)
      have : 0 ≤ |y| * (N : Int) := mul_nonneg hypos (by omega)
      linarith [htheta.1]
    · have hc : (0 : Int) ≤ Int.ceil (size_lookup / 2) := by omega
      have hNn : (0 : Int) ≤ (N : Int) := by omega
      have hcN : (0 : Int) ≤ Int.ceil (size_lookup / 2) * (N : Int) := mul_nonneg hc hNn
      have h1 : |y| * (N : Int) ≤ (Int.floor (size_lookup / 2) - 1) * (N : Int) :=
        mul_le_mul_of_nonneg_right (by omega) hNn
      have h2 : Int.floor (size_lookup / 2) * (N : Int) ≤
          Int.ceil (size_lookup / 2) * (N : Int) := mul_le_mul_of_nonneg_right hfc hNn
      have h3 : (x + Int.floor (size_lookup / 2) + 1) * (Int.ceil (size_lookup / 2) * (N : Int)) ≤
          (2 * Int.floor (size_lookup / 2)) * (Int.ceil (size_lookup / 2) * (N : Int)) :=
        mul_le_mul_of_nonneg_right (by omega) hcN
      have hint : lookupFlatIndex size_lookup N ⟨x, y, theta⟩ <
          (2 * Int.floor (size_lookup / 2)) * (Int.ceil (size_lookup / 2) * (N : Int)) := by
        simp only [lookupFlatIndex]
        rw [hxpos, hypos2]
        nlinarith [htheta.2]
      have hq : ((lookupFlatIndex size_lookup N ⟨x, y, theta⟩ : Int) : ℚ) <
          (2 * (Int.floor (size_lookup / 2) : ℚ)) *
            ((Int.ceil (size_lookup / 2) : ℚ) * (N : ℚ)) := by
        exact_mod_cast hint
      have hcNq : (0 : ℚ) ≤ (Int.ceil (size_lookup / 2) : ℚ) * (N : ℚ) := by
        exact_mod_cast hcN
      have h4 : (2 * (Int.floor (size_lookup / 2) : ℚ)) *
          ((Int.ceil (size_lookup / 2) : ℚ) * (N : ℚ)) ≤
          size_lookup * ((Int.ceil (size_lookup / 2) : ℚ) * (N : ℚ)) :=
        mul_le_mul_of_nonneg_right (by linarith) hcNq
      calc ((lookupFlatIndex size_lookup N ⟨x, y, theta⟩ : Int) : ℚ)
          < (2 * (Int.floor (size_lookup / 2) : ℚ)) *
            ((Int.ceil (size_lookup / 2) : ℚ) * (N : ℚ)) := hq
        _ ≤ size_lookup * ((Int.ceil (size_lookup / 2) : ℚ) * (N : ℚ)) := h4
        _ = size_lookup * (Int.ceil (size_lookup / 2) : ℚ) * (N : ℚ) := by ring
  · rintro ⟨hyneg, hth⟩
    have hneg : ((y : Int) : ℚ) < 0 := by exact_mod_cast hyneg
    simp only [lookupThetaPos]
    rw [if_pos hneg, hth]
    have hcast : ((N : ℚ)) - (((0 : Int)) : ℚ) = (((N : Int)) : ℚ) := by push_cast; ring
    rw [hcast, truncate_intCast]

/-! ### The curve distance of the distance heuristic -/

/-- C11, at the failing input: with 4 heading bins of size 1, the node pose `(9, 1, 1)` is
outside the window around the goal `(0, 0, 0)`, and with obstacle heuristic 0
`getDistanceHeuristic` returns 14, the curve distance of the states `(9, 1, 4)` and `(0, 0, 0)`,
while the curve distance between the two poses (heading bin 1 is the angle 1) is 11. -/
theorem getDistanceHeuristic_scales_heading_by_bin_count :
    l1Table.num_angle_quantization = 4 ∧ l1Table.bin_size = 1 ∧
    NodeLattice.getDistanceHeuristic l1Table smallWindow ⟨9, 1, 1⟩ ⟨0, 0, 0⟩ 0 = .ok 14 ∧
    l1Table.state_space (9, 1, 4) (0, 0, 0) = 14 ∧
    l1Table.state_space (poseState l1Table.bin_size ⟨9, 1, 1⟩)
      (poseState l1Table.bin_size ⟨0, 0, 0⟩) = 11 := by
  refine ⟨rfl, rfl, ?_, ?_, ?_⟩
  · simp [NodeLattice.getDistanceHeuristic, node_coords_relative, l1Table, quadTable,
      freshTable, smallWindow, vectorAt, truncate, cround, l1Distance]
    norm_num
  · simp [l1Table, l1Distance]
    norm_num
  · simp [l1Table, quadTable, freshTable, l1Distance, poseState]
    norm_num

/-- Outside the window with obstacle heuristic 0, `getDistanceHeuristic` returns the curve
distance between the two poses exactly when the curve space gives the same value for the
headings times the number of bins as for the headings times the bin size; that is so when
`bin_size` equals `num_angle_quantization`. -/
theorem getDistanceHeuristic_curve_distance_of_poses (t : LatticeMotionTable)
    (hybrid : NodeHybrid) (node_coords goal_coords rel : Coordinates)
    (hrel : node_coords_relative t node_coords goal_coords = .ok rel)
    (hout : ¬ (|rel.x| < (Int.floor (hybrid.size_lookup / 2) : Int) ∧
      |rel.y| < (Int.floor (hybrid.size_lookup / 2) : Int)))
    (hbin : t.bin_size = t.num_angle_quantization) :
    NodeLattice.getDistanceHeuristic t hybrid node_coords goal_coords 0 =
      .ok (t.state_space (poseState t.bin_size node_coords)
        (poseState t.bin_size goal_coords)) := by
  simp only [NodeLattice.getDistanceHeuristic, hrel, hout, if_false, if_true, poseState, hbin]

end nav2_smac_planner
